import Mathlib

/-!
# relay: `lib.BufferToMessage`

A shallow embedding of `src/lib/parse.go`.  `BufferToMessage` hands the same
buffer to `json.Unmarshal` five times (four struct targets, then
`map[string]string`), so the embedding has three layers:

* the JSON text layer: the byte-at-a-time scanner of `encoding/json`
  (`scanner.go`), fused with the construction of the value it recognises;
* the decoding layer: `Unmarshal` into a Go type, driven by a descriptor of
  that type (`decode.go`): field lookup by exact then case-folded name, the
  type mismatches that are saved as an `UnmarshalTypeError`, `null` handling;
* the functions of `parse.go` themselves.

Buffers are modelled as `String`, i.e. as valid UTF-8 text; Go strings that
come out of the decoder are then valid UTF-8 as well and are modelled as
`String`.  `int` is the 64-bit `int` of the platforms the program is built for.

The library code is that of the Go releases `parse.go` was written for (1.13
and 1.14; it uses the verb `%w`, new in 1.13).  Three details differ in later
releases and matter only at the inputs named: `d.array` grows a full slice to
capacity `cap + cap/2`, at least 4 (an object that repeats a slice-valued key
three times or more), `strconv.Quote` writes U+007F as `\u007f` (a quoted
string that holds that rune), and the scanner has no nesting limit (a buffer
nested more than 10000 deep).  The range of a map is taken in the order in
which the keys entered the map; `BufferToMessage` sorts the keys before it
uses them.
-/

namespace Relay

/-! ## JSON values -/

/-- A JSON value as the decoder reads it.  A number keeps the text of its
literal, because the decoder converts it according to the target type. An
object keeps its members in buffer order, duplicates included. -/
inductive JSON where
  | null
  | bool (b : Bool)
  | num (lit : String)
  | str (s : String)
  | arr (elems : List JSON)
  | obj (members : List (String × JSON))
  deriving Inhabited

/-! ## The scanner (`encoding/json/scanner.go`) -/

/-- One unit of the inside of a string literal: a character (written raw or
through a one-letter escape) or the 16-bit value of a `\uXXXX` escape. -/
inductive StrUnit where
  | raw (c : Char)
  | esc (u : Nat)

/-- The replacement character U+FFFD. -/
def replacementChar : Char := Char.ofNat 0xFFFD

/-- Decoding of the units of a string literal (`unquoteBytes`, decode.go): a
`\u` escape that is a surrogate is combined with a directly following `\u`
escape when the two form a valid pair, and becomes U+FFFD otherwise. -/
def unquote : List StrUnit → List Char
  | [] => []
  | .raw c :: rest => c :: unquote rest
  | .esc rr :: .esc rr1 :: rest =>
    if 0xD800 ≤ rr ∧ rr < 0xE000 then
      if rr < 0xDC00 ∧ 0xDC00 ≤ rr1 ∧ rr1 < 0xE000 then
        Char.ofNat (0x10000 + (rr - 0xD800) * 0x400 + (rr1 - 0xDC00)) :: unquote rest
      else replacementChar :: unquote (.esc rr1 :: rest)
    else Char.ofNat rr :: unquote (.esc rr1 :: rest)
  | .esc rr :: rest =>
    if 0xD800 ≤ rr ∧ rr < 0xE000 then replacementChar :: unquote rest
    else Char.ofNat rr :: unquote rest

/-- The step functions of the scanner (`scanner.step`). -/
inductive Step where
  | stateBeginValueOrEmpty | stateBeginValue | stateBeginStringOrEmpty | stateBeginString
  | stateEndValue | stateEndTop
  | stateInString | stateInStringEsc
  | stateInStringEscU | stateInStringEscU1 | stateInStringEscU12 | stateInStringEscU123
  | stateNeg | state1 | state0 | stateDot | stateDot0 | stateE | stateESign | stateE0
  | stateT | stateTr | stateTru
  | stateF | stateFa | stateFal | stateFals
  | stateN | stateNu | stateNul
  | stateError
  deriving DecidableEq

/-- An entry of the scanner's `parseState` stack, together with what has been
read of the composite value it stands for. -/
inductive Frame where
  | parseObjectKey (acc : List (String × JSON)) (key : String)
  | parseObjectValue (acc : List (String × JSON)) (key : String)
  | parseArrayValue (acc : List JSON)

/-- The scanner: its step function and `parseState` stack, the literal being
read (`lit` for a number, `units` and `hex` for a string), and the top-level
value once it is complete. -/
structure Scanner where
  step : Step
  parseState : List Frame
  lit : List Char
  units : List StrUnit
  hex : Nat
  top : Option JSON

/-- The scanner after `reset`. -/
def Scanner.reset : Scanner :=
  { step := .stateBeginValue, parseState := [], lit := [], units := [], hex := 0, top := none }

/-- The scanner after `s.error`. -/
def Scanner.error (s : Scanner) : Scanner := { s with step := .stateError }

/-- `isSpace` of scanner.go. -/
def isSpace (c : Char) : Bool := c == ' ' || c == '\t' || c == '\r' || c == '\n'

/-- The value of a hexadecimal digit, if `c` is one. -/
def hexVal (c : Char) : Option Nat :=
  if '0' ≤ c ∧ c ≤ '9' then some (c.toNat - '0'.toNat)
  else if 'a' ≤ c ∧ c ≤ 'f' then some (c.toNat - 'a'.toNat + 10)
  else if 'A' ≤ c ∧ c ≤ 'F' then some (c.toNat - 'A'.toNat + 10)
  else none

/-- A value has been read completely: it becomes the top-level value, an
object key, the value of the pending key, or the next array element; the
scanner goes on with `stateEndValue`. -/
def Scanner.deliver (s : Scanner) (v : JSON) : Scanner :=
  match s.parseState with
  | [] => { s with top := some v, step := .stateEndValue }
  | .parseObjectKey acc _ :: rest =>
    match v with
    | .str k => { s with parseState := .parseObjectKey acc k :: rest, step := .stateEndValue }
    | _ => s.error
  | .parseObjectValue acc k :: rest =>
    { s with parseState := .parseObjectValue (acc ++ [(k, v)]) k :: rest, step := .stateEndValue }
  | .parseArrayValue acc :: rest =>
    { s with parseState := .parseArrayValue (acc ++ [v]) :: rest, step := .stateEndValue }

/-- `stateEndTop`: after the top-level value only space is allowed. -/
def stateEndTop (s : Scanner) (c : Char) : Scanner :=
  if isSpace c then { s with step := .stateEndTop } else s.error

/-- `stateEndValue`: what may follow a complete value depends on the top of
`parseState`; `}` and `]` pop it and deliver the finished composite. -/
def stateEndValue (s : Scanner) (c : Char) : Scanner :=
  match s.parseState with
  | [] => stateEndTop s c
  | .parseObjectKey acc k :: rest =>
    if isSpace c then { s with step := .stateEndValue }
    else if c == ':' then
      { s with parseState := .parseObjectValue acc k :: rest, step := .stateBeginValue }
    else s.error
  | .parseObjectValue acc _ :: rest =>
    if isSpace c then { s with step := .stateEndValue }
    else if c == ',' then
      { s with parseState := .parseObjectKey acc "" :: rest, step := .stateBeginString }
    else if c == '}' then Scanner.deliver { s with parseState := rest } (.obj acc)
    else s.error
  | .parseArrayValue acc :: rest =>
    if isSpace c then { s with step := .stateEndValue }
    else if c == ',' then { s with step := .stateBeginValue }
    else if c == ']' then Scanner.deliver { s with parseState := rest } (.arr acc)
    else s.error

/-- `stateBeginValue`. -/
def stateBeginValue (s : Scanner) (c : Char) : Scanner :=
  if isSpace c then s
  else if c == '{' then
    { s with step := .stateBeginStringOrEmpty, parseState := .parseObjectKey [] "" :: s.parseState }
  else if c == '[' then
    { s with step := .stateBeginValueOrEmpty, parseState := .parseArrayValue [] :: s.parseState }
  else if c == '"' then { s with step := .stateInString, units := [] }
  else if c == '-' then { s with step := .stateNeg, lit := [c] }
  else if c == '0' then { s with step := .state0, lit := [c] }
  else if c == 't' then { s with step := .stateT }
  else if c == 'f' then { s with step := .stateF }
  else if c == 'n' then { s with step := .stateN }
  else if '1' ≤ c ∧ c ≤ '9' then { s with step := .state1, lit := [c] }
  else s.error

/-- `stateBeginString`: after `{` or `,` in an object a key must follow. -/
def stateBeginString (s : Scanner) (c : Char) : Scanner :=
  if isSpace c then s
  else if c == '"' then { s with step := .stateInString, units := [] }
  else s.error

/-- The end of a number literal: the value is delivered and `c` is read by
`stateEndValue`. -/
def endNumber (s : Scanner) (c : Char) : Scanner :=
  stateEndValue (s.deliver (.num (String.mk s.lit))) c

/-- One more character of a number literal. -/
def Scanner.more (s : Scanner) (c : Char) (next : Step) : Scanner :=
  { s with lit := s.lit ++ [c], step := next }

/-- One more hexadecimal digit of a `\u` escape. -/
def Scanner.hexDigit (s : Scanner) (c : Char) (next : Step) : Scanner :=
  match hexVal c with
  | some d => { s with hex := s.hex * 16 + d, step := next }
  | none => s.error

/-- One more unit of a string literal. -/
def Scanner.unit (s : Scanner) (u : StrUnit) : Scanner :=
  { s with units := s.units ++ [u], step := .stateInString }

/-- One byte through the scanner (`s.step(s, c)`). -/
def Scanner.next (s : Scanner) (c : Char) : Scanner :=
  match s.step with
  | .stateError => s
  | .stateBeginValue => stateBeginValue s c
  | .stateBeginValueOrEmpty =>
    if isSpace c then s
    else if c == ']' then stateEndValue s c
    else stateBeginValue s c
  | .stateBeginStringOrEmpty =>
    if isSpace c then s
    else if c == '}' then
      match s.parseState with
      | .parseObjectKey acc k :: rest =>
        stateEndValue { s with parseState := .parseObjectValue acc k :: rest } c
      | _ => s.error
    else stateBeginString s c
  | .stateBeginString => stateBeginString s c
  | .stateEndValue => stateEndValue s c
  | .stateEndTop => stateEndTop s c
  | .stateInString =>
    if c == '"' then s.deliver (.str (String.mk (unquote s.units)))
    else if c == '\\' then { s with step := .stateInStringEsc }
    else if c.toNat < 0x20 then s.error
    else s.unit (.raw c)
  | .stateInStringEsc =>
    if c == 'b' then s.unit (.raw (Char.ofNat 8))
    else if c == 'f' then s.unit (.raw (Char.ofNat 12))
    else if c == 'n' then s.unit (.raw '\n')
    else if c == 'r' then s.unit (.raw '\r')
    else if c == 't' then s.unit (.raw '\t')
    else if c == '\\' || c == '/' || c == '"' then s.unit (.raw c)
    else if c == 'u' then { s with step := .stateInStringEscU, hex := 0 }
    else s.error
  | .stateInStringEscU => s.hexDigit c .stateInStringEscU1
  | .stateInStringEscU1 => s.hexDigit c .stateInStringEscU12
  | .stateInStringEscU12 => s.hexDigit c .stateInStringEscU123
  | .stateInStringEscU123 =>
    match hexVal c with
    | some d => s.unit (.esc (s.hex * 16 + d))
    | none => s.error
  | .stateNeg =>
    if c == '0' then s.more c .state0
    else if '1' ≤ c ∧ c ≤ '9' then s.more c .state1
    else s.error
  | .state1 =>
    if '0' ≤ c ∧ c ≤ '9' then s.more c .state1
    else if c == '.' then s.more c .stateDot
    else if c == 'e' || c == 'E' then s.more c .stateE
    else endNumber s c
  | .state0 =>
    if c == '.' then s.more c .stateDot
    else if c == 'e' || c == 'E' then s.more c .stateE
    else endNumber s c
  | .stateDot => if '0' ≤ c ∧ c ≤ '9' then s.more c .stateDot0 else s.error
  | .stateDot0 =>
    if '0' ≤ c ∧ c ≤ '9' then s.more c .stateDot0
    else if c == 'e' || c == 'E' then s.more c .stateE
    else endNumber s c
  | .stateE =>
    if c == '+' || c == '-' then s.more c .stateESign
    else if '0' ≤ c ∧ c ≤ '9' then s.more c .stateE0
    else s.error
  | .stateESign => if '0' ≤ c ∧ c ≤ '9' then s.more c .stateE0 else s.error
  | .stateE0 => if '0' ≤ c ∧ c ≤ '9' then s.more c .stateE0 else endNumber s c
  | .stateT => if c == 'r' then { s with step := .stateTr } else s.error
  | .stateTr => if c == 'u' then { s with step := .stateTru } else s.error
  | .stateTru => if c == 'e' then s.deliver (.bool true) else s.error
  | .stateF => if c == 'a' then { s with step := .stateFa } else s.error
  | .stateFa => if c == 'l' then { s with step := .stateFal } else s.error
  | .stateFal => if c == 's' then { s with step := .stateFals } else s.error
  | .stateFals => if c == 'e' then s.deliver (.bool false) else s.error
  | .stateN => if c == 'u' then { s with step := .stateNu } else s.error
  | .stateNu => if c == 'l' then { s with step := .stateNul } else s.error
  | .stateNul => if c == 'l' then s.deliver .null else s.error

/-- The value a buffer denotes, or `none` for a syntax error (`checkValid`:
every byte goes through the scanner, then `eof` feeds one space and asks
whether the top-level value is complete). -/
def parse (buf : String) : Option JSON :=
  let s := (buf.data.foldl Scanner.next Scanner.reset).next ' '
  if s.step = .stateEndTop then s.top else none

/-! ## Go types and values (`encoding/json/decode.go`) -/

/-- The Go types that occur in `parse.go`, as far as `Unmarshal` tells them
apart.  A struct is the list of its fields in declaration order, each under
the name of its `json:"..."` tag; a map has `string` keys. -/
inductive GoType where
  | string
  | int
  | bool
  | float64
  | iface
  | slice (elem : GoType)
  | map (elem : GoType)
  | struct (fields : List (String × GoType))

/-- Values of those types.  A slice is its length and its backing array (whose
length is the capacity); a struct is the list of its field values in
declaration order; a map lists its entries, keys distinct.  No function of
`parse.go` reads a `float64` or an `interface{}`: the former is kept as the
text of the literal it was converted from, the latter as the JSON value. -/
inductive GoVal where
  | string (s : String)
  | int (n : Int)
  | bool (b : Bool)
  | float64 (lit : String)
  | iface (v : JSON)
  | slice (len : Nat) (backing : List GoVal)
  | map (entries : List (String × GoVal))
  | struct (fields : List GoVal)
  deriving Inhabited

mutual
/-- The zero value of a type (`var data T`). -/
def zero : GoType → GoVal
  | .string => .string ""
  | .int => .int 0
  | .bool => .bool false
  | .float64 => .float64 "0"
  | .iface => .iface .null
  | .slice _ => .slice 0 []
  | .map _ => .map []
  | .struct fs => .struct (zeroFields fs)
/-- The zero values of the fields of a struct. -/
def zeroFields : List (String × GoType) → List GoVal
  | [] => []
  | (_, t) :: fs => zero t :: zeroFields fs
end

/-- The number a run of decimal digits denotes. -/
def digitsVal (ds : List Char) : Nat :=
  ds.foldl (fun a c => a * 10 + (c.toNat - '0'.toNat)) 0

/-- `strconv.ParseInt(lit, 10, 64)` on a JSON number literal: `none` when the
literal has a fraction or an exponent, or is out of the range of `int`. -/
def parseInt (lit : String) : Option Int :=
  let neg := lit.data.head? == some '-'
  let ds := if neg then lit.data.drop 1 else lit.data
  if ds ≠ [] ∧ ds.all Char.isDigit then
    let v : Int := if neg then -(digitsVal ds : Int) else (digitsVal ds : Int)
    if -(2 : Int) ^ 63 ≤ v ∧ v < (2 : Int) ^ 63 then some v else none
  else none

/-- Whether `strconv.ParseFloat(lit, 64)` reports a range error on a JSON
number literal: the number is at least `2^1024 - 2^970` in magnitude, where
rounding to nearest leaves the finite `float64` values. -/
def floatOverflows (lit : String) : Bool :=
  let body := if lit.data.head? == some '-' then lit.data.drop 1 else lit.data
  let mant := body.takeWhile (fun c => c != 'e' && c != 'E')
  let expo := (body.dropWhile (fun c => c != 'e' && c != 'E')).drop 1
  let ip := mant.takeWhile (fun c => c != '.')
  let fp := (mant.dropWhile (fun c => c != '.')).drop 1
  let m := digitsVal (ip ++ fp)
  let eneg := expo.head? == some '-'
  let eds := if expo.head? == some '-' || expo.head? == some '+' then expo.drop 1 else expo
  let e : Int := (if eneg then -(digitsVal eds : Int) else (digitsVal eds : Int)) - fp.length
  if 0 ≤ e then decide (2 ^ 1024 - 2 ^ 970 ≤ m * 10 ^ e.toNat)
  else decide ((2 ^ 1024 - 2 ^ 970) * 10 ^ (-e).toNat ≤ m)

mutual
/-- Whether storing a JSON value in an `interface{}` saves an error: only a
number inside it that `convertNumber` cannot convert to `float64` does. -/
def JSON.overflows : JSON → Bool
  | .num lit => floatOverflows lit
  | .arr es => overflowsList es
  | .obj ms => overflowsMembers ms
  | _ => false
/-- `JSON.overflows` over the elements of an array. -/
def overflowsList : List JSON → Bool
  | [] => false
  | x :: xs => x.overflows || overflowsList xs
/-- `JSON.overflows` over the members of an object. -/
def overflowsMembers : List (String × JSON) → Bool
  | [] => false
  | (_, x) :: xs => x.overflows || overflowsMembers xs
end

/-- Simple case folding of the runes that fold to an ASCII letter: the ASCII
letters themselves, U+017F (long s) and U+212A (Kelvin sign). -/
def foldRune (c : Char) : Char :=
  if 'a' ≤ c ∧ c ≤ 'z' then Char.ofNat (c.toNat - 32)
  else if c.toNat = 0x17F then 'S'
  else if c.toNat = 0x212A then 'K'
  else c

/-- The `equalFold` of a struct field (`foldFunc`, fold.go): `bytes.EqualFold`
of the field's name, which is ASCII, and the key. -/
def equalFold (name key : String) : Bool :=
  name.data.map foldRune == key.data.map foldRune

/-- The struct field an object key stands for (`d.object`): the field with
exactly that name, else the first field in declaration order whose name
equals the key under case folding. -/
def findField (fs : List (String × GoType)) (key : String) : Option String :=
  match fs.find? (fun f => f.1 == key) with
  | some f => some f.1
  | none => (fs.find? (fun f => equalFold f.1 key)).map (fun f => f.1)

/-- `v.SetMapIndex(key, elem)`. -/
def mapSet : List (String × GoVal) → String → GoVal → List (String × GoVal)
  | [], k, x => [(k, x)]
  | (k', x') :: es, k, x => if k' = k then (k, x) :: es else (k', x') :: mapSet es k x

/-- The slice under construction in `d.array`: index of the next element,
length, backing array, and whether an error has been saved. -/
structure SliceLoop where
  i : Nat
  len : Nat
  backing : List GoVal
  err : Bool

/-- `d.array` growing the slice before element `i` is decoded: a full backing
array is replaced by one of capacity `cap + cap/2`, at least 4, holding the
`len` elements of the old one and zero values; the length becomes at least
`i + 1`. -/
def SliceLoop.grow (zeroElem : GoVal) (st : SliceLoop) : SliceLoop :=
  let backing :=
    if st.backing.length ≤ st.i then
      st.backing.take st.len ++
        List.replicate (max 4 (st.backing.length + st.backing.length / 2) - st.len) zeroElem
    else st.backing
  { st with backing := backing, len := if st.len ≤ st.i then st.i + 1 else st.len }

mutual
/-- `d.value(v)`: decode the JSON value `x` into the Go value `cur` of type
`t`.  Returns the new value and whether an `UnmarshalTypeError` was saved on
the way (`d.saveError`); decoding goes on after such an error and leaves the
mismatched target as it was.

* `null` sets a slice, map or interface to nil and is ignored elsewhere;
* an object is decoded into a struct member by member (a key that names no
  field is skipped, a repeated key decodes into the same field again) or into
  a map (each element is decoded into a fresh zero value, then stored);
* an array is decoded into a slice element by element, into the elements the
  slice already has as far as they go;
* an `interface{}` takes any value. -/
def decode : GoType → GoVal → JSON → GoVal × Bool
  | .string, cur, x =>
    match x with
    | .null => (cur, false)
    | .str s => (.string s, false)
    | _ => (cur, true)
  | .int, cur, x =>
    match x with
    | .null => (cur, false)
    | .num lit =>
      match parseInt lit with
      | some n => (.int n, false)
      | none => (cur, true)
    | _ => (cur, true)
  | .bool, cur, x =>
    match x with
    | .null => (cur, false)
    | .bool b => (.bool b, false)
    | _ => (cur, true)
  | .float64, cur, x =>
    match x with
    | .null => (cur, false)
    | .num lit => if floatOverflows lit then (cur, true) else (.float64 lit, false)
    | _ => (cur, true)
  | .iface, _, x => (.iface x, x.overflows)
  | .slice e, cur, x =>
    match x with
    | .null => (.slice 0 [], false)
    | .arr elems =>
      let start : SliceLoop :=
        match cur with
        | .slice len backing => { i := 0, len := len, backing := backing, err := false }
        | _ => { i := 0, len := 0, backing := [], err := false }
      let r := elems.foldl (fun (st : SliceLoop) y =>
        let st := st.grow (zero e)
        let d := decode e (st.backing.getD st.i (zero e)) y
        { st with i := st.i + 1, backing := st.backing.set st.i d.1, err := st.err || d.2 }) start
      if r.i = 0 then (.slice 0 [], r.err)
      else (.slice (if r.i < r.len then r.i else r.len) r.backing, r.err)
    | _ => (cur, true)
  | .map e, cur, x =>
    match x with
    | .null => (.map [], false)
    | .obj members =>
      let start : List (String × GoVal) :=
        match cur with
        | .map entries => entries
        | _ => []
      let r := members.foldl (fun (acc : List (String × GoVal) × Bool) m =>
        let d := decode e (zero e) m.2
        (mapSet acc.1 m.1 d.1, acc.2 || d.2)) (start, false)
      (.map r.1, r.2)
    | _ => (cur, true)
  | .struct fs, cur, x =>
    match x with
    | .null => (cur, false)
    | .obj members =>
      let start : List GoVal :=
        match cur with
        | .struct vals => vals
        | _ => zeroFields fs
      let r := members.foldl (fun (acc : List GoVal × Bool) m =>
        match findField fs m.1 with
        | some name =>
          let d := decodeField fs name acc.1 m.2
          (d.1, acc.2 || d.2)
        | none => acc) (start, false)
      (.struct r.1, r.2)
    | _ => (cur, true)
/-- Decode `x` into the field called `name` of a struct whose fields are `fs`
and hold `vals`. -/
def decodeField : List (String × GoType) → String → List GoVal → JSON → List GoVal × Bool
  | (n, t) :: fs, name, v :: vals, x =>
    if n = name then
      let d := decode t v x
      (d.1 :: vals, d.2)
    else
      let d := decodeField fs name vals x
      (v :: d.1, d.2)
  | _, _, vals, _ => (vals, false)
end

/-- The two kinds of error `json.Unmarshal` returns here. -/
inductive UnmarshalError where
  | syntaxError
  | unmarshalTypeError
  deriving DecidableEq

/-- `json.Unmarshal(buf, &data)` for a zero `data` of type `t`: a buffer that
is not valid JSON is a syntax error and leaves `data` alone; otherwise the
value is decoded and the error saved on the way, if any, is returned. -/
def Unmarshal (t : GoType) (buf : String) : GoVal × Option UnmarshalError :=
  match parse buf with
  | none => (zero t, some .syntaxError)
  | some x =>
    let d := decode t (zero t) x
    (d.1, if d.2 then some .unmarshalTypeError else none)

/-! ## Formatting (`fmt`, `strconv`) -/

/-- The verb `%d` on an `int`. -/
def fmtD (n : Int) : String :=
  if n < 0 then "-" ++ Nat.repr n.natAbs else Nat.repr n.natAbs

/-- The verb `%02d` on an `int`: zero padding to width 2, the sign counting
as one column. -/
def fmt02d (n : Int) : String :=
  if n < 0 then "-" ++ Nat.repr n.natAbs
  else if n < 10 then "0" ++ Nat.repr n.natAbs
  else Nat.repr n.natAbs

/-- `strconv.IsPrint`: decided by comparisons for the runes up to U+00FF and
by the tables of `strconv/isprint.go` above; these tables are the parameter
`isPrintTable`. -/
def IsPrint (isPrintTable : Char → Bool) (r : Char) : Bool :=
  if r.toNat ≤ 0xFF then
    if 0x20 ≤ r.toNat ∧ r.toNat ≤ 0x7E then true
    else if 0xA1 ≤ r.toNat then r.toNat != 0xAD
    else false
  else isPrintTable r

/-- The hexadecimal digit `lowerhex[n]`. -/
def lowerhex (n : Nat) : Char := "0123456789abcdef".data.getD n '0'

/-- `appendEscapedRune` of strconv/quote.go for the double quote, neither
ASCII-only nor graphic-only. -/
def appendEscapedRune (isPrintTable : Char → Bool) (r : Char) : List Char :=
  if r = '"' ∨ r = '\\' then ['\\', r]
  else if IsPrint isPrintTable r then [r]
  else if r.toNat = 7 then ['\\', 'a']
  else if r.toNat = 8 then ['\\', 'b']
  else if r.toNat = 12 then ['\\', 'f']
  else if r = '\n' then ['\\', 'n']
  else if r = '\r' then ['\\', 'r']
  else if r = '\t' then ['\\', 't']
  else if r.toNat = 11 then ['\\', 'v']
  else if r.toNat < 0x20 then ['\\', 'x', lowerhex (r.toNat / 16), lowerhex (r.toNat % 16)]
  else if r.toNat < 0x10000 then
    ['\\', 'u', lowerhex (r.toNat / 4096 % 16), lowerhex (r.toNat / 256 % 16),
      lowerhex (r.toNat / 16 % 16), lowerhex (r.toNat % 16)]
  else
    ['\\', 'U', lowerhex (r.toNat / 268435456 % 16), lowerhex (r.toNat / 16777216 % 16),
      lowerhex (r.toNat / 1048576 % 16), lowerhex (r.toNat / 65536 % 16),
      lowerhex (r.toNat / 4096 % 16), lowerhex (r.toNat / 256 % 16),
      lowerhex (r.toNat / 16 % 16), lowerhex (r.toNat % 16)]

/-- The verb `%q` on a string: `strconv.Quote`. -/
def fmtQ (isPrintTable : Char → Bool) (s : String) : String :=
  String.mk ('"' :: (s.data.flatMap (appendEscapedRune isPrintTable) ++ ['"']))

/-! ## `sort.Strings` -/

/-- The order `<` of Go strings, which compares bytes; on valid UTF-8 that is
the lexicographic order of the code points. -/
def lessChars : List Char → List Char → Bool
  | _, [] => false
  | [], _ :: _ => true
  | a :: as, b :: bs => a.toNat < b.toNat || (a.toNat == b.toNat && lessChars as bs)

/-- The order `a <= b` of Go strings. -/
def StringLE (a b : String) : Prop := lessChars b.data a.data = false

instance : DecidableRel StringLE := fun _ _ => inferInstanceAs (Decidable (_ = false))

/-- `sort.Strings`: the keys in ascending order. -/
def sortStrings (keys : List String) : List String := keys.insertionSort StringLE

/-! ## `parse.go`: the types -/

/-- The element type of `Sonarr.Episodes`. -/
def sonarrEpisodeFields : List (String × GoType) :=
  [("id", .int), ("episodeNumber", .int), ("seasonNumber", .int), ("title", .string),
   ("qualityVersion", .int)]

/-- The type of `Sonarr.Series`. -/
def sonarrSeriesFields : List (String × GoType) :=
  [("id", .int), ("title", .string), ("path", .string), ("tvdbId", .int)]

/-- The type `Sonarr`. -/
def sonarrFields : List (String × GoType) :=
  [("episodes", .slice (.struct sonarrEpisodeFields)),
   ("eventType", .string),
   ("series", .struct sonarrSeriesFields)]

/-- The type of `GoogleCloud.Incident`. -/
def googleCloudIncidentFields : List (String × GoType) :=
  [("incident_id", .string), ("resource_id", .string), ("resource_name", .string),
   ("resource", .struct [("type", .string), ("labels", .struct [("host", .string)])]),
   ("resource_type_display_name", .string),
   ("metric", .struct [("type", .string), ("displayName", .string)]),
   ("started_at", .int), ("policy_name", .string), ("condition_name", .string),
   ("condition", .struct
      [("name", .string), ("displayName", .string),
       ("conditionThreshold", .struct
          [("filter", .string),
           ("aggregations", .slice (.struct
              [("alignmentPeriod", .string), ("perSeriesAligner", .string),
               ("crossSeriesReducer", .string), ("groupByFields", .slice .string)])),
           ("comparison", .string), ("thresholdValue", .float64), ("duration", .string),
           ("trigger", .struct [("count", .int)])])]),
   ("url", .string), ("state", .string), ("ended_at", .iface), ("summary", .string)]

/-- The type `GoogleCloud`. -/
def googleCloudFields : List (String × GoType) :=
  [("incident", .struct googleCloudIncidentFields), ("version", .string)]

/-- The element type of `Lidarr.Albums`. -/
def lidarrAlbumFields : List (String × GoType) :=
  [("id", .int), ("title", .string), ("qualityVersion", .int)]

/-- The type of `Lidarr.Artist`. -/
def lidarrArtistFields : List (String × GoType) :=
  [("id", .int), ("name", .string), ("path", .string), ("mbId", .string)]

/-- The type `Lidarr`. -/
def lidarrFields : List (String × GoType) :=
  [("albums", .slice (.struct lidarrAlbumFields)),
   ("eventType", .string),
   ("artist", .struct lidarrArtistFields)]

/-- The type of `Plex.Metadata`. -/
def plexMetadataFields : List (String × GoType) :=
  [("librarySectionType", .string), ("ratingKey", .string), ("key", .string),
   ("parentRatingKey", .string), ("grandparentRatingKey", .string), ("guid", .string),
   ("parentGuid", .string), ("grandparentGuid", .string), ("type", .string),
   ("title", .string), ("grandparentTitle", .string), ("parentTitle", .string),
   ("contentRating", .string), ("summary", .string), ("index", .int),
   ("parentIndex", .int), ("rating", .float64), ("viewCount", .int),
   ("lastViewedAt", .int), ("year", .int), ("thumb", .string), ("art", .string),
   ("parentThumb", .string), ("grandparentThumb", .string), ("grandparentArt", .string),
   ("grandparentTheme", .string), ("originallyAvailableAt", .string), ("addedAt", .int),
   ("updatedAt", .int)]

/-- The type `Plex`. -/
def plexFields : List (String × GoType) :=
  [("event", .string), ("user", .bool), ("owner", .bool),
   ("Account", .struct [("id", .int), ("thumb", .string), ("title", .string)]),
   ("Server", .struct [("title", .string), ("uuid", .string)]),
   ("Player", .struct
      [("local", .bool), ("publicAddress", .string), ("title", .string), ("uuid", .string)]),
   ("Metadata", .struct plexMetadataFields)]

/-- The value of the field `name` of a struct value with fields `fs`. -/
def GoVal.field (fs : List (String × GoType)) (name : String) : GoVal → GoVal
  | .struct vals => (((fs.map (fun f => f.1)).zip vals).lookup name).getD default
  | _ => default

/-- A `string` value. -/
def GoVal.asString : GoVal → String
  | .string s => s
  | _ => ""

/-- An `int` value. -/
def GoVal.asInt : GoVal → Int
  | .int n => n
  | _ => 0

/-- The elements of a slice value. -/
def GoVal.elems : GoVal → List GoVal
  | .slice len backing => backing.take len
  | _ => []

/-- An element of `Sonarr.Episodes`, with the fields `parse.go` reads. -/
structure SonarrEpisode where
  EpisodeNumber : Int
  SeasonNumber : Int
  deriving DecidableEq

/-- The field `Sonarr.Series`, with the field `parse.go` reads. -/
structure SonarrSeries where
  Title : String
  deriving DecidableEq

/-- A `Sonarr`, with the fields `parse.go` reads. -/
structure Sonarr where
  Episodes : List SonarrEpisode
  EventType : String
  Series : SonarrSeries
  deriving DecidableEq

/-- The field `GoogleCloud.Incident`, with the fields `parse.go` reads. -/
structure GoogleCloudIncident where
  IncidentID : String
  Summary : String
  deriving DecidableEq

/-- A `GoogleCloud`, with the field `parse.go` reads. -/
structure GoogleCloud where
  Incident : GoogleCloudIncident
  deriving DecidableEq

/-- An element of `Lidarr.Albums`, with the field `parse.go` reads. -/
structure LidarrAlbum where
  Title : String
  deriving DecidableEq

/-- The field `Lidarr.Artist`, with the field `parse.go` reads. -/
structure LidarrArtist where
  Name : String
  deriving DecidableEq

/-- A `Lidarr`, with the fields `parse.go` reads. -/
structure Lidarr where
  Albums : List LidarrAlbum
  EventType : String
  Artist : LidarrArtist
  deriving DecidableEq

/-- The field `Plex.Metadata`, with the fields `parse.go` reads. -/
structure PlexMetadata where
  GrandparentTitle : String
  Index : Int
  ParentIndex : Int
  deriving DecidableEq

/-- A `Plex`, with the fields `parse.go` reads. -/
structure Plex where
  Event : String
  Metadata : PlexMetadata
  deriving DecidableEq

/-- The fields of a decoded `Sonarr` that `parse.go` reads. -/
def Sonarr.ofGoVal (v : GoVal) : Sonarr :=
  { Episodes := (v.field sonarrFields "episodes").elems.map (fun ep =>
      { EpisodeNumber := (ep.field sonarrEpisodeFields "episodeNumber").asInt,
        SeasonNumber := (ep.field sonarrEpisodeFields "seasonNumber").asInt }),
    EventType := (v.field sonarrFields "eventType").asString,
    Series :=
      { Title := ((v.field sonarrFields "series").field sonarrSeriesFields "title").asString } }

/-- The fields of a decoded `GoogleCloud` that `parse.go` reads. -/
def GoogleCloud.ofGoVal (v : GoVal) : GoogleCloud :=
  let incident := v.field googleCloudFields "incident"
  { Incident :=
      { IncidentID := (incident.field googleCloudIncidentFields "incident_id").asString,
        Summary := (incident.field googleCloudIncidentFields "summary").asString } }

/-- The fields of a decoded `Lidarr` that `parse.go` reads. -/
def Lidarr.ofGoVal (v : GoVal) : Lidarr :=
  { Albums := (v.field lidarrFields "albums").elems.map (fun al =>
      { Title := (al.field lidarrAlbumFields "title").asString }),
    EventType := (v.field lidarrFields "eventType").asString,
    Artist :=
      { Name := ((v.field lidarrFields "artist").field lidarrArtistFields "name").asString } }

/-- The fields of a decoded `Plex` that `parse.go` reads. -/
def Plex.ofGoVal (v : GoVal) : Plex :=
  let metadata := v.field plexFields "Metadata"
  { Event := (v.field plexFields "event").asString,
    Metadata :=
      { GrandparentTitle := (metadata.field plexMetadataFields "grandparentTitle").asString,
        Index := (metadata.field plexMetadataFields "index").asInt,
        ParentIndex := (metadata.field plexMetadataFields "parentIndex").asInt } }

/-! ## `parse.go`: the functions -/

/-- `jsonToSonarr`: `nil` when `json.Unmarshal` returns an error. -/
def jsonToSonarr (buf : String) : Option Sonarr :=
  match Unmarshal (.struct sonarrFields) buf with
  | (_, some _) => none
  | (data, none) => some (Sonarr.ofGoVal data)

/-- `(*Sonarr).Message`. -/
def Sonarr.Message (isPrintTable : Char → Bool) (j : Sonarr) : String :=
  j.Episodes.foldl (fun msg ep =>
    msg ++ ("Sonarr: " ++ j.Series.Title ++ " " ++ fmtD ep.SeasonNumber ++ "x" ++
      fmt02d ep.EpisodeNumber ++ " - " ++ fmtQ isPrintTable j.EventType ++ "\n")) ""

/-- `(*Sonarr).Valid`. -/
def Sonarr.Valid (j : Sonarr) : Bool :=
  j.EventType != "" && decide (j.Episodes.length > 0)

/-- `jsonToGoogleCloud`: `nil` when `json.Unmarshal` returns an error. -/
def jsonToGoogleCloud (buf : String) : Option GoogleCloud :=
  match Unmarshal (.struct googleCloudFields) buf with
  | (_, some _) => none
  | (data, none) => some (GoogleCloud.ofGoVal data)

/-- `(*GoogleCloud).Message`. -/
def GoogleCloud.Message (isPrintTable : Char → Bool) (j : GoogleCloud) : String :=
  "GCP Alert - " ++ fmtQ isPrintTable j.Incident.Summary ++ "\n"

/-- `(*GoogleCloud).Valid`. -/
def GoogleCloud.Valid (j : GoogleCloud) : Bool :=
  j.Incident.IncidentID != ""

/-- `jsonToLidarr`: `nil` when `json.Unmarshal` returns an error. -/
def jsonToLidarr (buf : String) : Option Lidarr :=
  match Unmarshal (.struct lidarrFields) buf with
  | (_, some _) => none
  | (data, none) => some (Lidarr.ofGoVal data)

/-- `(*Lidarr).Message`. -/
def Lidarr.Message (isPrintTable : Char → Bool) (j : Lidarr) : String :=
  j.Albums.foldl (fun msg ep =>
    msg ++ ("Lidarr: " ++ j.Artist.Name ++ " - " ++ fmtQ isPrintTable ep.Title ++ " - " ++
      j.EventType ++ "\n")) ""

/-- `(*Lidarr).Valid`. -/
def Lidarr.Valid (j : Lidarr) : Bool :=
  j.EventType != "" && decide (j.Albums.length > 0)

/-- `jsonToPlex`: `nil` when `json.Unmarshal` returns an error. -/
def jsonToPlex (buf : String) : Option Plex :=
  match Unmarshal (.struct plexFields) buf with
  | (_, some _) => none
  | (data, none) => some (Plex.ofGoVal data)

/-- `(*Plex).Message`. -/
def Plex.Message (isPrintTable : Char → Bool) (j : Plex) : String :=
  "Plex - " ++ fmtQ isPrintTable j.Event ++ " : " ++ j.Metadata.GrandparentTitle ++ " " ++
    fmtD j.Metadata.ParentIndex ++ "x" ++ fmtD j.Metadata.Index ++ "\n"

/-- `(*Plex).Valid`. -/
def Plex.Valid (j : Plex) : Bool :=
  j.Event != ""

/-- The error `BufferToMessage` returns:
`fmt.Errorf("decoding json to map: %w", err)`. -/
inductive Error where
  | decodingJSONToMap (err : UnmarshalError)
  deriving DecidableEq

/-- The entries of a decoded `map[string]string`. -/
def GoVal.entries : GoVal → List (String × GoVal)
  | .map es => es
  | _ => []

/-- `BufferToMessage`. -/
def BufferToMessage (isPrintTable : Char → Bool) (buf : String) : String × Option Error :=
  let msg := ""
  let msg :=
    match jsonToSonarr buf with
    | some data => if data.Valid then msg ++ data.Message isPrintTable else msg
    | none => msg
  let msg :=
    match jsonToLidarr buf with
    | some data => if data.Valid then msg ++ data.Message isPrintTable else msg
    | none => msg
  let msg :=
    match jsonToGoogleCloud buf with
    | some data => if data.Valid then msg ++ data.Message isPrintTable else msg
    | none => msg
  let msg :=
    match jsonToPlex buf with
    | some data => if data.Valid then msg ++ data.Message isPrintTable else msg
    | none => msg
  if msg == "" then
    match Unmarshal (.map .string) buf with
    | (_, some err) => ("", some (.decodingJSONToMap err))
    | (f, none) =>
      let keys := f.entries.map (fun e => e.1)
      let keys := sortStrings keys
      (keys.foldl (fun msg k =>
        msg ++ (k ++ ": " ++ ((f.entries.lookup k).getD (.string "")).asString ++ "\n")) msg,
        none)
  else (msg, none)

/-! ## Vocabulary of the specification -/

/-- The accumulator `msg` of `BufferToMessage` after the four schema
attempts. -/
def schemaMessage (isPrintTable : Char → Bool) (buf : String) : String :=
  let msg := ""
  let msg :=
    match jsonToSonarr buf with
    | some data => if data.Valid then msg ++ data.Message isPrintTable else msg
    | none => msg
  let msg :=
    match jsonToLidarr buf with
    | some data => if data.Valid then msg ++ data.Message isPrintTable else msg
    | none => msg
  let msg :=
    match jsonToGoogleCloud buf with
    | some data => if data.Valid then msg ++ data.Message isPrintTable else msg
    | none => msg
  let msg :=
    match jsonToPlex buf with
    | some data => if data.Valid then msg ++ data.Message isPrintTable else msg
    | none => msg
  msg

/-- What the block under `if msg == ""` of `BufferToMessage` returns: the
generic fallback, which decodes the buffer as a `map[string]string`, collects
and sorts the keys and writes one line per key. -/
def fallback (buf : String) : String × Option Error :=
  match Unmarshal (.map .string) buf with
  | (_, some err) => ("", some (.decodingJSONToMap err))
  | (f, none) =>
    let keys := f.entries.map (fun e => e.1)
    let keys := sortStrings keys
    (keys.foldl (fun msg k =>
      msg ++ (k ++ ": " ++ ((f.entries.lookup k).getD (.string "")).asString ++ "\n")) "", none)

/-- The text one schema contributes to the accumulator: the formatted message
when the buffer decodes under the schema and the result is valid, nothing
otherwise. -/
def contribution {α : Type} (data : Option α) (valid : α → Bool) (message : α → String) :
    String :=
  match data with
  | some d => if valid d then message d else ""
  | none => ""

/-- A schema matches a buffer: the buffer decodes under it and the result is
valid. -/
def schemaMatches {α : Type} (data : Option α) (valid : α → Bool) : Bool :=
  match data with
  | some d => valid d
  | none => false

/-- The Series schema matches the buffer. -/
def matchesSonarr (buf : String) : Bool := schemaMatches (jsonToSonarr buf) Sonarr.Valid

/-- The Album schema matches the buffer. -/
def matchesLidarr (buf : String) : Bool := schemaMatches (jsonToLidarr buf) Lidarr.Valid

/-- The Incident schema matches the buffer. -/
def matchesGoogleCloud (buf : String) : Bool :=
  schemaMatches (jsonToGoogleCloud buf) GoogleCloud.Valid

/-- The MediaPlayer schema matches the buffer. -/
def matchesPlex (buf : String) : Bool := schemaMatches (jsonToPlex buf) Plex.Valid

/-- None of the four schemas matches the buffer. -/
def noSchemaMatches (buf : String) : Bool :=
  !matchesSonarr buf && !matchesLidarr buf && !matchesGoogleCloud buf && !matchesPlex buf

/-- The value of the last member with key `k` among the members of an
object. -/
def lastMember (k : String) : List (String × JSON) → Option JSON
  | [] => none
  | m :: ms =>
    match lastMember k ms with
    | some v => some v
    | none => if m.1 = k then some m.2 else none

/-- The text of a JSON string; the empty text for any other value. -/
def JSON.text : JSON → String
  | .str s => s
  | _ => ""

/-- The line `<key>: <value>` and a newline, the value being the text of the
last member of the object with that key. -/
def fallbackLine (members : List (String × JSON)) (k : String) : String :=
  k ++ ": " ++ ((lastMember k members).map JSON.text).getD "" ++ "\n"

/-- The value is a JSON string. -/
def JSON.isString : JSON → Bool
  | .str _ => true
  | _ => false

/-- The value is the literal `null`. -/
def JSON.isNull : JSON → Bool
  | .null => true
  | _ => false

/-- The value is a JSON object. -/
def JSON.isObject : JSON → Bool
  | .obj _ => true
  | _ => false

/-- The value is a number, a boolean, an array or an object. -/
def JSON.isTyped : JSON → Bool
  | .num _ => true
  | .bool _ => true
  | .arr _ => true
  | .obj _ => true
  | _ => false

mutual
/-- A JSON value without the object members that name no field of the struct
they are decoded into, at any depth. -/
def prune : GoType → JSON → JSON
  | .slice e, x =>
    match x with
    | .arr xs => .arr (xs.map (prune e))
    | _ => x
  | .map e, x =>
    match x with
    | .obj ms => .obj (ms.map (fun m => (m.1, prune e m.2)))
    | _ => x
  | .struct fs, x =>
    match x with
    | .obj ms => .obj (ms.filterMap (fun m =>
        match findField fs m.1 with
        | some name => some (m.1, pruneField fs name m.2)
        | none => none))
    | _ => x
  | _, x => x
/-- `prune` for the value of the field called `name`. -/
def pruneField : List (String × GoType) → String → JSON → JSON
  | (n, t) :: fs, name, x => if n = name then prune t x else pruneField fs name x
  | [], _, x => x
end

mutual
/-- A JSON value fits a Go type: decoding it saves no `UnmarshalTypeError`.
`null` fits every type; a string, number or boolean fits the type of its
kind (a number an `int` if it is an integer literal in range, a `float64` if
it does not overflow); an array fits a slice if its elements fit the element
type; an object fits a struct if every member that names a field fits that
field, whatever the other members hold. -/
def conforms : GoType → JSON → Bool
  | .string, x =>
    match x with
    | .null => true
    | .str _ => true
    | _ => false
  | .int, x =>
    match x with
    | .null => true
    | .num lit => (parseInt lit).isSome
    | _ => false
  | .bool, x =>
    match x with
    | .null => true
    | .bool _ => true
    | _ => false
  | .float64, x =>
    match x with
    | .null => true
    | .num lit => !floatOverflows lit
    | _ => false
  | .iface, x => !x.overflows
  | .slice e, x =>
    match x with
    | .null => true
    | .arr xs => xs.all (conforms e)
    | _ => false
  | .map e, x =>
    match x with
    | .null => true
    | .obj ms => ms.all (fun m => conforms e m.2)
    | _ => false
  | .struct fs, x =>
    match x with
    | .null => true
    | .obj ms => ms.all (fun m =>
        match findField fs m.1 with
        | some name => conformsField fs name m.2
        | none => true)
    | _ => false
/-- `conforms` for the value of the field called `name`. -/
def conformsField : List (String × GoType) → String → JSON → Bool
  | (n, t) :: fs, name, x => if n = name then conforms t x else conformsField fs name x
  | [], _, _ => true
end

mutual
/-- A Go value has a Go type. -/
def hasType : GoType → GoVal → Bool
  | .string, v =>
    match v with
    | .string _ => true
    | _ => false
  | .int, v =>
    match v with
    | .int _ => true
    | _ => false
  | .bool, v =>
    match v with
    | .bool _ => true
    | _ => false
  | .float64, v =>
    match v with
    | .float64 _ => true
    | _ => false
  | .iface, v =>
    match v with
    | .iface _ => true
    | _ => false
  | .slice e, v =>
    match v with
    | .slice _ backing => backing.all (hasType e)
    | _ => false
  | .map e, v =>
    match v with
    | .map es => es.all (fun p => hasType e p.2)
    | _ => false
  | .struct fs, v =>
    match v with
    | .struct vals => hasTypeFields fs vals
    | _ => false
/-- The values of the fields of a struct have the types of the fields. -/
def hasTypeFields : List (String × GoType) → List GoVal → Bool
  | [], [] => true
  | (_, t) :: fs, v :: vals => hasType t v && hasTypeFields fs vals
  | _, _ => false
end

/-- The last character of a string is a newline. -/
def endsWithNewline (s : String) : Prop := s.data.getLast? = some '\n'

/-- `BufferToMessage` with the order in which `for k := range f` delivers the
keys of the map made explicit: Go leaves that order open, `range` stands for
the order one execution takes. `BufferToMessage` itself takes the keys in the
order in which they entered the map. -/
def BufferToMessageRange (range : List String → List String) (isPrintTable : Char → Bool)
    (buf : String) : String × Option Error :=
  let msg := schemaMessage isPrintTable buf
  if msg == "" then
    match Unmarshal (.map .string) buf with
    | (_, some err) => ("", some (.decodingJSONToMap err))
    | (f, none) =>
      let keys := range (f.entries.map (fun e => e.1))
      let keys := sortStrings keys
      (keys.foldl (fun msg k =>
        msg ++ (k ++ ": " ++ ((f.entries.lookup k).getD (.string "")).asString ++ "\n")) msg,
        none)
  else (msg, none)

/-- The key names no field of any of the four schemas, neither by its exact
name nor under case folding. -/
def namesNoField (k : String) : Bool :=
  (findField sonarrFields k).isNone && (findField lidarrFields k).isNone &&
    (findField googleCloudFields k).isNone && (findField plexFields k).isNone

/-! ## Lemmas: strings and the accumulator -/

theorem string_append_eq_empty {a b : String} : a ++ b = "" ↔ a = "" ∧ b = "" := by
  simp only [String.ext_iff, String.data_append]
  simp

theorem foldl_append_init {α : Type} (f : α → String) (l : List α) (init : String) :
    l.foldl (fun msg x => msg ++ f x) init = init ++ l.foldl (fun msg x => msg ++ f x) "" := by
  induction l generalizing init with
  | nil => simp
  | cons x xs ih =>
    simp only [List.foldl_cons]
    rw [ih, ih ("" ++ f x), String.empty_append, String.append_assoc]

theorem foldl_append_eq_join {α : Type} (f : α → String) (l : List α) :
    l.foldl (fun msg x => msg ++ f x) "" = String.join (l.map f) := by
  simp [String.join, List.foldl_map]

theorem foldl_append_ne_empty {α : Type} (f : α → String) (l : List α)
    (hl : l ≠ []) (hf : ∀ x, f x ≠ "") : l.foldl (fun msg x => msg ++ f x) "" ≠ "" := by
  cases l with
  | nil => exact absurd rfl hl
  | cons x xs =>
    simp only [List.foldl_cons]
    rw [foldl_append_init, String.empty_append]
    intro h
    exact hf x (string_append_eq_empty.mp h).1

theorem sonarr_valid_iff (j : Sonarr) :
    j.Valid = true ↔ j.EventType ≠ "" ∧ j.Episodes ≠ [] := by
  simp [Sonarr.Valid, List.length_pos]

theorem lidarr_valid_iff (j : Lidarr) :
    j.Valid = true ↔ j.EventType ≠ "" ∧ j.Albums ≠ [] := by
  simp [Lidarr.Valid, List.length_pos]

theorem sonarr_message_ne_empty (t : Char → Bool) (j : Sonarr) (h : j.Valid = true) :
    j.Message t ≠ "" := by
  apply foldl_append_ne_empty _ _ ((sonarr_valid_iff j).mp h).2
  intro ep he
  have := (string_append_eq_empty.mp he).2
  exact absurd this (by decide)

theorem lidarr_message_ne_empty (t : Char → Bool) (j : Lidarr) (h : j.Valid = true) :
    j.Message t ≠ "" := by
  apply foldl_append_ne_empty _ _ ((lidarr_valid_iff j).mp h).2
  intro ep he
  have := (string_append_eq_empty.mp he).2
  exact absurd this (by decide)

theorem googleCloud_message_ne_empty (t : Char → Bool) (j : GoogleCloud) :
    j.Message t ≠ "" := by
  intro he
  have := (string_append_eq_empty.mp he).2
  exact absurd this (by decide)

theorem plex_message_ne_empty (t : Char → Bool) (j : Plex) : j.Message t ≠ "" := by
  intro he
  have := (string_append_eq_empty.mp he).2
  exact absurd this (by decide)

theorem contribution_eq_empty_iff {α : Type} (data : Option α) (valid : α → Bool)
    (message : α → String) (hne : ∀ d, valid d = true → message d ≠ "") :
    contribution data valid message = "" ↔ schemaMatches data valid = false := by
  cases data with
  | none => simp [contribution, schemaMatches]
  | some d =>
    cases hv : valid d with
    | false => simp [contribution, schemaMatches, hv]
    | true => simpa [contribution, schemaMatches, hv] using hne d hv

theorem schemaMessage_eq (t : Char → Bool) (buf : String) :
    schemaMessage t buf =
      contribution (jsonToSonarr buf) Sonarr.Valid (Sonarr.Message t) ++
      contribution (jsonToLidarr buf) Lidarr.Valid (Lidarr.Message t) ++
      contribution (jsonToGoogleCloud buf) GoogleCloud.Valid (GoogleCloud.Message t) ++
      contribution (jsonToPlex buf) Plex.Valid (Plex.Message t) := by
  unfold schemaMessage contribution
  cases jsonToSonarr buf <;> cases jsonToLidarr buf <;> cases jsonToGoogleCloud buf <;>
    cases jsonToPlex buf <;> simp <;> split_ifs <;> simp

theorem schemaMessage_eq_empty_iff (t : Char → Bool) (buf : String) :
    schemaMessage t buf = "" ↔ noSchemaMatches buf = true := by
  rw [schemaMessage_eq]
  simp only [string_append_eq_empty, noSchemaMatches, matchesSonarr, matchesLidarr,
    matchesGoogleCloud, matchesPlex, Bool.and_eq_true, Bool.not_eq_true', and_assoc]
  rw [contribution_eq_empty_iff _ _ _ (sonarr_message_ne_empty t),
    contribution_eq_empty_iff _ _ _ (lidarr_message_ne_empty t),
    contribution_eq_empty_iff _ _ _ (fun d _ => googleCloud_message_ne_empty t d),
    contribution_eq_empty_iff _ _ _ (fun d _ => plex_message_ne_empty t d)]

theorem bufferToMessage_eq (t : Char → Bool) (buf : String) :
    BufferToMessage t buf =
      if schemaMessage t buf = "" then fallback buf else (schemaMessage t buf, none) := by
  have h : BufferToMessage t buf =
      if schemaMessage t buf == "" then
        match Unmarshal (.map .string) buf with
        | (_, some err) => ("", some (.decodingJSONToMap err))
        | (f, none) =>
          ((sortStrings (f.entries.map (fun e => e.1))).foldl (fun msg k =>
            msg ++ (k ++ ": " ++ ((f.entries.lookup k).getD (.string "")).asString ++ "\n"))
            (schemaMessage t buf), none)
      else (schemaMessage t buf, none) := rfl
  rw [h]
  by_cases he : schemaMessage t buf = ""
  · rw [he]
    rfl
  · simp [he]

theorem bufferToMessage_of_noMatch (t : Char → Bool) (buf : String)
    (h : noSchemaMatches buf = true) : BufferToMessage t buf = fallback buf := by
  rw [bufferToMessage_eq]
  simp [(schemaMessage_eq_empty_iff t buf).mpr h]

theorem bufferToMessage_of_match (t : Char → Bool) (buf : String)
    (h : noSchemaMatches buf = false) : BufferToMessage t buf = (schemaMessage t buf, none) := by
  rw [bufferToMessage_eq]
  have hne : schemaMessage t buf ≠ "" := fun he => by
    rw [(schemaMessage_eq_empty_iff t buf).mp he] at h
    exact absurd h (by decide)
  simp [hne]

/-! ## Lemmas: the order of strings -/

theorem lessChars_asymm (a b : List Char) (h : lessChars a b = true) : lessChars b a = false := by
  induction a generalizing b with
  | nil => cases b <;> simp_all [lessChars]
  | cons x xs ih =>
    cases b with
    | nil => simp_all [lessChars]
    | cons y ys =>
      simp only [lessChars, Bool.or_eq_true, Bool.and_eq_true, decide_eq_true_eq,
        beq_iff_eq] at h
      simp only [lessChars, Bool.or_eq_false_iff, Bool.and_eq_false_imp,
        decide_eq_false_iff_not, beq_iff_eq]
      rcases h with h | ⟨h1, h2⟩
      · exact ⟨by omega, fun h' => by omega⟩
      · exact ⟨by omega, fun _ => ih ys h2⟩

theorem lessChars_trans_ge (a b c : List Char) (hab : lessChars b a = false)
    (hbc : lessChars c b = false) : lessChars c a = false := by
  induction a generalizing b c with
  | nil => cases c <;> rfl
  | cons x xs ih =>
    cases b with
    | nil => simp [lessChars] at hab
    | cons y ys =>
      cases c with
      | nil => simp [lessChars] at hbc
      | cons z zs =>
        simp only [lessChars, Bool.or_eq_false_iff, Bool.and_eq_false_imp,
          decide_eq_false_iff_not, beq_iff_eq] at hab hbc ⊢
        refine ⟨by omega, fun hzx => ?_⟩
        exact ih ys zs (hab.2 (by omega)) (hbc.2 (by omega))

theorem lessChars_antisymm (a b : List Char) (hab : lessChars a b = false)
    (hba : lessChars b a = false) : a = b := by
  induction a generalizing b with
  | nil =>
    cases b with
    | nil => rfl
    | cons y ys => simp [lessChars] at hab
  | cons x xs ih =>
    cases b with
    | nil => simp [lessChars] at hba
    | cons y ys =>
      simp only [lessChars, Bool.or_eq_false_iff, Bool.and_eq_false_imp,
        decide_eq_false_iff_not, beq_iff_eq] at hab hba
      have hxy : x.toNat = y.toNat := by omega
      have : x = y := Char.ext (UInt32.ext hxy)
      subst this
      rw [ih ys (hab.2 rfl) (hba.2 rfl)]

theorem stringLE_total (a b : String) : StringLE a b ∨ StringLE b a := by
  unfold StringLE
  cases h : lessChars b.data a.data with
  | false => exact Or.inl rfl
  | true => exact Or.inr (lessChars_asymm _ _ h)

theorem stringLE_trans (a b c : String) (hab : StringLE a b) (hbc : StringLE b c) :
    StringLE a c :=
  lessChars_trans_ge a.data b.data c.data hab hbc

theorem sortStrings_perm (keys : List String) : (sortStrings keys).Perm keys :=
  List.perm_insertionSort StringLE keys

theorem sortStrings_sorted (keys : List String) : (sortStrings keys).Pairwise StringLE :=
  @List.sorted_insertionSort _ StringLE _ ⟨stringLE_total⟩ ⟨stringLE_trans⟩ keys

theorem sortStrings_strict (keys : List String) (h : keys.Nodup) :
    (sortStrings keys).Pairwise (fun a b => lessChars a.data b.data = true) := by
  have hn : (sortStrings keys).Nodup := (sortStrings_perm keys).nodup_iff.mpr h
  refine ((sortStrings_sorted keys).and hn).imp ?_
  intro a b hab
  cases hl : lessChars a.data b.data with
  | true => rfl
  | false => exact absurd (String.ext (lessChars_antisymm _ _ hl hab.1)) hab.2


/-! ## Lemmas: decoding into `map[string]string` -/

theorem mapSet_mem_keys (es : List (String × GoVal)) (k k' : String) (x : GoVal) :
    k ∈ (mapSet es k' x).map Prod.fst ↔ k = k' ∨ k ∈ es.map Prod.fst := by
  induction es with
  | nil => simp [mapSet]
  | cons e es ih =>
    obtain ⟨a, b⟩ := e
    by_cases h : a = k'
    · subst h
      simp [mapSet]
    · simp only [mapSet, h, ↓reduceIte, List.map_cons, List.mem_cons, ih]
      tauto

theorem mapSet_nodup (es : List (String × GoVal)) (k : String) (x : GoVal)
    (h : (es.map Prod.fst).Nodup) : ((mapSet es k x).map Prod.fst).Nodup := by
  induction es with
  | nil => simp [mapSet]
  | cons e es ih =>
    obtain ⟨a, b⟩ := e
    simp only [List.map_cons, List.nodup_cons] at h
    by_cases hk : a = k
    · subst hk
      simpa [mapSet] using h
    · simp only [mapSet, hk, ↓reduceIte, List.map_cons, List.nodup_cons]
      refine ⟨?_, ih h.2⟩
      intro hm
      rcases (mapSet_mem_keys es a k x).mp hm with h1 | h1
      · exact hk h1
      · exact h.1 h1

theorem mapSet_lookup (es : List (String × GoVal)) (k k' : String) (x : GoVal) :
    (mapSet es k' x).lookup k = if k = k' then some x else es.lookup k := by
  induction es with
  | nil =>
    by_cases h : k = k'
    · simp [mapSet, h]
    · have hb : (k == k') = false := by simpa using h
      simp [mapSet, h, List.lookup, hb]
  | cons e es ih =>
    obtain ⟨a, b⟩ := e
    by_cases ha : a = k'
    · subst ha
      by_cases h : k = a
      · simp [mapSet, h]
      · have hb : (k == a) = false := by simpa using h
        simp [mapSet, h, List.lookup_cons, hb]
    · by_cases h : k = a
      · subst h
        have : ¬ k = k' := ha
        simp [mapSet, ha, this]
      · have hb : (k == a) = false := by simpa using h
        simp only [mapSet, ha, ↓reduceIte, List.lookup_cons, hb, ih]

/-- The entries of the map after the members of a flat object have been
stored one after the other. -/
theorem entries_fold_spec (g : JSON → GoVal) (ms : List (String × JSON))
    (acc : List (String × GoVal)) :
    (∀ k, k ∈ (ms.foldl (fun a m => mapSet a m.1 (g m.2)) acc).map Prod.fst ↔
      k ∈ acc.map Prod.fst ∨ ∃ v, (k, v) ∈ ms) ∧
    ((acc.map Prod.fst).Nodup →
      ((ms.foldl (fun a m => mapSet a m.1 (g m.2)) acc).map Prod.fst).Nodup) ∧
    (∀ k, (ms.foldl (fun a m => mapSet a m.1 (g m.2)) acc).lookup k =
      match lastMember k ms with
      | some v => some (g v)
      | none => acc.lookup k) := by
  induction ms generalizing acc with
  | nil => simp [lastMember]
  | cons m ms ih =>
    obtain ⟨hk, hn, hl⟩ := ih (mapSet acc m.1 (g m.2))
    refine ⟨?_, ?_, ?_⟩
    · intro k
      simp only [List.foldl_cons, hk, mapSet_mem_keys, List.mem_cons]
      constructor
      · rintro ((h | h) | ⟨v, h⟩)
        · exact Or.inr ⟨m.2, Or.inl (by rw [h])⟩
        · exact Or.inl h
        · exact Or.inr ⟨v, Or.inr h⟩
      · rintro (h | ⟨v, h | h⟩)
        · exact Or.inl (Or.inr h)
        · exact Or.inl (Or.inl (by rw [← h]))
        · exact Or.inr ⟨v, h⟩
    · intro h
      exact hn (mapSet_nodup acc m.1 (g m.2) h)
    · intro k
      simp only [List.foldl_cons, hl, lastMember]
      cases hlm : lastMember k ms with
      | some v => rfl
      | none =>
        simp only [mapSet_lookup]
        by_cases h : k = m.1
        · simp [h]
        · have h' : ¬ m.1 = k := fun e => h e.symm
          simp [h, h']

theorem decode_map_obj (e : GoType) (entries : List (String × GoVal))
    (members : List (String × JSON)) :
    decode (.map e) (.map entries) (.obj members) =
      (.map (members.foldl (fun (acc : List (String × GoVal) × Bool) m =>
        (mapSet acc.1 m.1 (decode e (zero e) m.2).1,
          acc.2 || (decode e (zero e) m.2).2)) (entries, false)).1,
       (members.foldl (fun (acc : List (String × GoVal) × Bool) m =>
        (mapSet acc.1 m.1 (decode e (zero e) m.2).1,
          acc.2 || (decode e (zero e) m.2).2)) (entries, false)).2) := by
  simp [decode]

theorem decode_string_flat (x : JSON) (h : x.isTyped = false) :
    decode .string (zero .string) x = (.string x.text, false) := by
  cases x <;> simp_all [decode, zero, JSON.isTyped, JSON.text]

theorem decode_string_typed (x : JSON) (h : x.isTyped = true) :
    (decode .string (zero .string) x).2 = true := by
  cases x <;> simp_all [decode, zero, JSON.isTyped]

theorem mapFold_flat (ms : List (String × JSON)) (acc : List (String × GoVal)) (e : Bool)
    (h : ∀ m ∈ ms, m.2.isTyped = false) :
    ms.foldl (fun (acc : List (String × GoVal) × Bool) m =>
        (mapSet acc.1 m.1 (decode .string (zero .string) m.2).1,
          acc.2 || (decode .string (zero .string) m.2).2)) (acc, e) =
      (ms.foldl (fun a m => mapSet a m.1 (.string m.2.text)) acc, e) := by
  induction ms generalizing acc e with
  | nil => rfl
  | cons m ms ih =>
    simp only [List.foldl_cons]
    rw [decode_string_flat m.2 (h m (List.mem_cons_self _ _))]
    simp only [Bool.or_false]
    exact ih _ _ (fun m' hm' => h m' (List.mem_cons_of_mem _ hm'))

theorem mapFold_err_of_true (ms : List (String × JSON)) (acc : List (String × GoVal)) :
    (ms.foldl (fun (acc : List (String × GoVal) × Bool) m =>
        (mapSet acc.1 m.1 (decode .string (zero .string) m.2).1,
          acc.2 || (decode .string (zero .string) m.2).2)) (acc, true)).2 = true := by
  induction ms generalizing acc with
  | nil => rfl
  | cons m ms ih =>
    simp only [List.foldl_cons, Bool.true_or]
    exact ih _

theorem mapFold_err_of_typed (ms : List (String × JSON)) (acc : List (String × GoVal))
    (e : Bool) (h : ∃ m ∈ ms, m.2.isTyped = true) :
    (ms.foldl (fun (acc : List (String × GoVal) × Bool) m =>
        (mapSet acc.1 m.1 (decode .string (zero .string) m.2).1,
          acc.2 || (decode .string (zero .string) m.2).2)) (acc, e)).2 = true := by
  induction ms generalizing acc e with
  | nil => simp at h
  | cons m ms ih =>
    simp only [List.foldl_cons]
    obtain ⟨m', hm', ht⟩ := h
    rcases List.mem_cons.mp hm' with rfl | hm'
    · rw [decode_string_typed _ ht, Bool.or_true]
      exact mapFold_err_of_true ms _
    · exact ih _ _ ⟨m', hm', ht⟩

/-! ## The dispatcher -/

set_option maxRecDepth 100000

/-- C1. When at least one of the four schemas matches the buffer,
`BufferToMessage` returns no error and the concatenation, in the order Sonarr,
Lidarr, GoogleCloud, Plex, of the messages of the schemas that decode and are
valid; when those are exactly Sonarr and GoogleCloud the result is the Sonarr
block followed by the GoogleCloud block. -/
theorem C1_matching_schemas_concatenate (isPrintTable : Char → Bool) (buf : String)
    (h : matchesSonarr buf = true ∨ matchesLidarr buf = true ∨
      matchesGoogleCloud buf = true ∨ matchesPlex buf = true) :
    BufferToMessage isPrintTable buf =
      (contribution (jsonToSonarr buf) Sonarr.Valid (Sonarr.Message isPrintTable) ++
        contribution (jsonToLidarr buf) Lidarr.Valid (Lidarr.Message isPrintTable) ++
        contribution (jsonToGoogleCloud buf) GoogleCloud.Valid
          (GoogleCloud.Message isPrintTable) ++
        contribution (jsonToPlex buf) Plex.Valid (Plex.Message isPrintTable), none) ∧
    (∀ s g, jsonToSonarr buf = some s → s.Valid = true →
      jsonToGoogleCloud buf = some g → g.Valid = true →
      matchesLidarr buf = false → matchesPlex buf = false →
      BufferToMessage isPrintTable buf =
        (s.Message isPrintTable ++ g.Message isPrintTable, none)) := by
  have hm : noSchemaMatches buf = false := by
    unfold noSchemaMatches
    rcases h with h | h | h | h <;> simp [h]
  have hb := bufferToMessage_of_match isPrintTable buf hm
  rw [schemaMessage_eq] at hb
  refine ⟨hb, ?_⟩
  intro s g hs hsv hg hgv hl hp
  rw [hb]
  have hl' : contribution (jsonToLidarr buf) Lidarr.Valid (Lidarr.Message isPrintTable) = "" :=
    (contribution_eq_empty_iff _ _ _ (lidarr_message_ne_empty isPrintTable)).mpr hl
  have hp' : contribution (jsonToPlex buf) Plex.Valid (Plex.Message isPrintTable) = "" :=
    (contribution_eq_empty_iff _ _ _ (fun d _ => plex_message_ne_empty isPrintTable d)).mpr hp
  rw [hl', hp', hs, hg]
  simp [contribution, hsv, hgv]

/-- C1, at the buffer
`{"eventType":"Grab","episodes":[{"seasonNumber":1,"episodeNumber":2}],"incident":{"incident_id":"7","summary":"disk full"}}`,
which matches the Sonarr and the GoogleCloud schema. -/
theorem C1_matching_schemas_concatenate_witness :
    matchesSonarr "\x7b\"eventType\":\"Grab\",\"episodes\":[\x7b\"seasonNumber\":1,\"episodeNumber\":2\x7d],\"incident\":\x7b\"incident_id\":\"7\",\"summary\":\"disk full\"\x7d\x7d" = true ∧
    BufferToMessage (fun _ => false) "\x7b\"eventType\":\"Grab\",\"episodes\":[\x7b\"seasonNumber\":1,\"episodeNumber\":2\x7d],\"incident\":\x7b\"incident_id\":\"7\",\"summary\":\"disk full\"\x7d\x7d" =
      ("Sonarr:  1x02 - \"Grab\"\nGCP Alert - \"disk full\"\n", none) := by
  refine ⟨by decide!, ?_⟩
  have h := (C1_matching_schemas_concatenate (fun _ => false)
    "\x7b\"eventType\":\"Grab\",\"episodes\":[\x7b\"seasonNumber\":1,\"episodeNumber\":2\x7d],\"incident\":\x7b\"incident_id\":\"7\",\"summary\":\"disk full\"\x7d\x7d"
    (Or.inl (by decide!))).2
  exact h ⟨[⟨2, 1⟩], "Grab", ⟨""⟩⟩ ⟨⟨"7", "disk full"⟩⟩ (by decide!) (by decide!) (by decide!)
    (by decide!) (by decide!) (by decide!)

/-- C2. Every valid Sonarr, Lidarr, GoogleCloud or Plex value has a non-empty
message; the accumulator is the concatenation of the matching schemas' texts,
so it is empty exactly when no schema matches; `BufferToMessage` is the
fallback in that case and the accumulator, without error, in the other. -/
theorem C2_fallback_iff_no_schema_matches (isPrintTable : Char → Bool) (buf : String) :
    (∀ j : Sonarr, j.Valid = true → j.Message isPrintTable ≠ "") ∧
    (∀ j : Lidarr, j.Valid = true → j.Message isPrintTable ≠ "") ∧
    (∀ j : GoogleCloud, j.Valid = true → j.Message isPrintTable ≠ "") ∧
    (∀ j : Plex, j.Valid = true → j.Message isPrintTable ≠ "") ∧
    schemaMessage isPrintTable buf =
      contribution (jsonToSonarr buf) Sonarr.Valid (Sonarr.Message isPrintTable) ++
        contribution (jsonToLidarr buf) Lidarr.Valid (Lidarr.Message isPrintTable) ++
        contribution (jsonToGoogleCloud buf) GoogleCloud.Valid
          (GoogleCloud.Message isPrintTable) ++
        contribution (jsonToPlex buf) Plex.Valid (Plex.Message isPrintTable) ∧
    (schemaMessage isPrintTable buf = "" ↔ noSchemaMatches buf = true) ∧
    (noSchemaMatches buf = true → BufferToMessage isPrintTable buf = fallback buf) ∧
    (noSchemaMatches buf = false →
      BufferToMessage isPrintTable buf = (schemaMessage isPrintTable buf, none) ∧
      schemaMessage isPrintTable buf ≠ "") :=
  ⟨sonarr_message_ne_empty isPrintTable, lidarr_message_ne_empty isPrintTable,
    fun j _ => googleCloud_message_ne_empty isPrintTable j,
    fun j _ => plex_message_ne_empty isPrintTable j,
    schemaMessage_eq isPrintTable buf, schemaMessage_eq_empty_iff isPrintTable buf,
    bufferToMessage_of_noMatch isPrintTable buf,
    fun h => ⟨bufferToMessage_of_match isPrintTable buf h, fun he => by
      rw [(schemaMessage_eq_empty_iff isPrintTable buf).mp he] at h
      exact absurd h (by decide)⟩⟩

/-- C3, as stated, fails: on
`{"eventType":"Grab","series":{"title":"Foo"},"episodes":[{"seasonNumber":1,"episodeNumber":2}]}`
the result is not the line that starts with `Series:`, whatever the
printability table. -/
theorem C3_series_label_counterexample :
    ¬ ∃ isPrintTable : Char → Bool,
      BufferToMessage isPrintTable "\x7b\"eventType\":\"Grab\",\"series\":\x7b\"title\":\"Foo\"\x7d,\"episodes\":[\x7b\"seasonNumber\":1,\"episodeNumber\":2\x7d]\x7d" =
        ("Series: Foo 1x02 - \"Grab\"\n", none) := by
  rintro ⟨t, h⟩
  have h' : BufferToMessage t "\x7b\"eventType\":\"Grab\",\"series\":\x7b\"title\":\"Foo\"\x7d,\"episodes\":[\x7b\"seasonNumber\":1,\"episodeNumber\":2\x7d]\x7d" =
      ("Sonarr: Foo 1x02 - \"Grab\"\n", none) := rfl
  rw [h'] at h
  exact absurd h (by decide)

/-- C3, amended. On
`{"eventType":"Grab","series":{"title":"Foo"},"episodes":[{"seasonNumber":1,"episodeNumber":2}]}`
`BufferToMessage` returns, with no error, the line `Sonarr: Foo 1x02 - "Grab"`
followed by one newline. -/
theorem C3_series_grab_output (isPrintTable : Char → Bool) :
    BufferToMessage isPrintTable "\x7b\"eventType\":\"Grab\",\"series\":\x7b\"title\":\"Foo\"\x7d,\"episodes\":[\x7b\"seasonNumber\":1,\"episodeNumber\":2\x7d]\x7d" =
      ("Sonarr: Foo 1x02 - \"Grab\"\n", none) := rfl

/-- C4. A Sonarr value is valid exactly when its event type is non-empty and
it has an episode; a Lidarr value exactly when its event type is non-empty and
it has an album.  A buffer that decodes to a Sonarr value with an empty event
type and at least one episode gets no text from the Sonarr schema: the
accumulator is what the other three schemas contribute, and the result is
that text, or the fallback when it is empty.  Such a buffer is
`{"eventType":"","episodes":[{"seasonNumber":1,"episodeNumber":2}]}`. -/
theorem C4_series_album_validity :
    (∀ j : Sonarr, j.Valid = true ↔ j.EventType ≠ "" ∧ j.Episodes ≠ []) ∧
    (∀ j : Lidarr, j.Valid = true ↔ j.EventType ≠ "" ∧ j.Albums ≠ []) ∧
    (∀ (isPrintTable : Char → Bool) (buf : String) (j : Sonarr),
      jsonToSonarr buf = some j → j.EventType = "" → j.Episodes ≠ [] →
      contribution (jsonToSonarr buf) Sonarr.Valid (Sonarr.Message isPrintTable) = "" ∧
      schemaMessage isPrintTable buf =
        contribution (jsonToLidarr buf) Lidarr.Valid (Lidarr.Message isPrintTable) ++
          contribution (jsonToGoogleCloud buf) GoogleCloud.Valid
            (GoogleCloud.Message isPrintTable) ++
          contribution (jsonToPlex buf) Plex.Valid (Plex.Message isPrintTable) ∧
      BufferToMessage isPrintTable buf =
        if contribution (jsonToLidarr buf) Lidarr.Valid (Lidarr.Message isPrintTable) ++
            contribution (jsonToGoogleCloud buf) GoogleCloud.Valid
              (GoogleCloud.Message isPrintTable) ++
            contribution (jsonToPlex buf) Plex.Valid (Plex.Message isPrintTable) = ""
        then fallback buf
        else (contribution (jsonToLidarr buf) Lidarr.Valid (Lidarr.Message isPrintTable) ++
            contribution (jsonToGoogleCloud buf) GoogleCloud.Valid
              (GoogleCloud.Message isPrintTable) ++
            contribution (jsonToPlex buf) Plex.Valid (Plex.Message isPrintTable), none)) ∧
    jsonToSonarr "\x7b\"eventType\":\"\",\"episodes\":[\x7b\"seasonNumber\":1,\"episodeNumber\":2\x7d]\x7d" =
      some ⟨[⟨2, 1⟩], "", ⟨""⟩⟩ ∧
    matchesSonarr "\x7b\"eventType\":\"\",\"episodes\":[\x7b\"seasonNumber\":1,\"episodeNumber\":2\x7d]\x7d" =
      false := by
  refine ⟨sonarr_valid_iff, lidarr_valid_iff, ?_, by decide!, by decide!⟩
  intro t buf j hj he _
  have hv : j.Valid = false := by simp [Sonarr.Valid, he]
  have hc : contribution (jsonToSonarr buf) Sonarr.Valid (Sonarr.Message t) = "" := by
    simp [contribution, hj, hv]
  have hm : schemaMessage t buf =
      contribution (jsonToLidarr buf) Lidarr.Valid (Lidarr.Message t) ++
        contribution (jsonToGoogleCloud buf) GoogleCloud.Valid (GoogleCloud.Message t) ++
        contribution (jsonToPlex buf) Plex.Valid (Plex.Message t) := by
    rw [schemaMessage_eq, hc, String.empty_append]
  refine ⟨hc, hm, ?_⟩
  rw [bufferToMessage_eq, hm]

/-- C5. A GoogleCloud value is valid exactly when its incident identifier is
non-empty, so two values with the same identifier are both valid or both
invalid whatever their summaries; a Plex value is valid exactly when its event
is non-empty, whatever its metadata. -/
theorem C5_incident_player_validity :
    (∀ j : GoogleCloud, j.Valid = true ↔ j.Incident.IncidentID ≠ "") ∧
    (∀ j j' : GoogleCloud, j.Incident.IncidentID = j'.Incident.IncidentID →
      j.Valid = j'.Valid) ∧
    (∀ j : Plex, j.Valid = true ↔ j.Event ≠ "") ∧
    (∀ j j' : Plex, j.Event = j'.Event → j.Valid = j'.Valid) := by
  refine ⟨?_, ?_, ?_, ?_⟩
  · intro j
    simp [GoogleCloud.Valid]
  · intro j j' h
    simp [GoogleCloud.Valid, h]
  · intro j
    simp [Plex.Valid]
  · intro j j' h
    simp [Plex.Valid, h]

/-! ## The fallback -/

theorem unmarshal_map_obj (buf : String) (members : List (String × JSON))
    (hp : parse buf = some (.obj members)) :
    Unmarshal (.map .string) buf =
      (.map (members.foldl (fun (acc : List (String × GoVal) × Bool) m =>
        (mapSet acc.1 m.1 (decode .string (zero .string) m.2).1,
          acc.2 || (decode .string (zero .string) m.2).2)) ([], false)).1,
       if (members.foldl (fun (acc : List (String × GoVal) × Bool) m =>
        (mapSet acc.1 m.1 (decode .string (zero .string) m.2).1,
          acc.2 || (decode .string (zero .string) m.2).2)) ([], false)).2
       then some .unmarshalTypeError else none) := by
  unfold Unmarshal
  rw [hp]
  have hz : zero (.map .string) = .map [] := by simp [zero]
  simp only [hz, decode_map_obj]

theorem fallback_flat (buf : String) (members : List (String × JSON))
    (hp : parse buf = some (.obj members)) (hflat : ∀ m ∈ members, m.2.isTyped = false) :
    ∃ keys : List String,
      keys.Pairwise (fun a b => lessChars a.data b.data = true) ∧
      (∀ k, k ∈ keys ↔ ∃ v, (k, v) ∈ members) ∧
      fallback buf = (String.join (keys.map (fallbackLine members)), none) := by
  obtain ⟨hk, hn, hl⟩ := entries_fold_spec (fun x => GoVal.string x.text) members []
  refine ⟨sortStrings ((members.foldl (fun a m => mapSet a m.1 (.string m.2.text)) []).map
    Prod.fst), sortStrings_strict _ (hn (by simp)), ?_, ?_⟩
  · intro k
    rw [(sortStrings_perm _).mem_iff, hk]
    simp
  · unfold fallback
    rw [unmarshal_map_obj buf members hp, mapFold_flat members [] false hflat]
    simp only [Bool.false_eq_true, ↓reduceIte, GoVal.entries]
    rw [foldl_append_eq_join]
    congr 2
    apply List.map_congr_left
    intro k _
    simp only [fallbackLine, hl, List.lookup_nil]
    cases lastMember k members <;> rfl

theorem fallback_typed (buf : String) (members : List (String × JSON))
    (hp : parse buf = some (.obj members)) (h : ∃ m ∈ members, m.2.isTyped = true) :
    fallback buf = ("", some (.decodingJSONToMap .unmarshalTypeError)) := by
  unfold fallback
  rw [unmarshal_map_obj buf members hp, mapFold_err_of_typed members [] false h]
  rfl


/-- C6. A buffer that is a JSON object whose values are all strings and that
matches none of the four schemas: `BufferToMessage` returns no error and the
concatenation of the lines `<key>: <value>` and a newline over the keys of the
object in strictly ascending order, each key once (the value is that of the
last member with the key). `{"b":"2","a":"1"}` gives the lines for `a` and
`b` in that order, `{}` gives the empty string. -/
theorem C6_fallback_sorted_lines (isPrintTable : Char → Bool) (buf : String)
    (members : List (String × JSON)) (hp : parse buf = some (.obj members))
    (hs : ∀ m ∈ members, m.2.isString = true) (hn : noSchemaMatches buf = true) :
    (∃ keys : List String,
      keys.Pairwise (fun a b => lessChars a.data b.data = true) ∧
      (∀ k, k ∈ keys ↔ ∃ v, (k, v) ∈ members) ∧
      BufferToMessage isPrintTable buf =
        (String.join (keys.map (fallbackLine members)), none)) ∧
    BufferToMessage isPrintTable "\x7b\"b\":\"2\",\"a\":\"1\"\x7d" = ("a: 1\nb: 2\n", none) ∧
    BufferToMessage isPrintTable "\x7b\x7d" = ("", none) := by
  refine ⟨?_, rfl, rfl⟩
  rw [bufferToMessage_of_noMatch isPrintTable buf hn]
  apply fallback_flat buf members hp
  intro m hm
  have := hs m hm
  cases hv : m.2 <;> simp_all [JSON.isString, JSON.isTyped]

/-- C6 at the buffer `{"b":"2","a":"1"}`. -/
theorem C6_fallback_sorted_lines_witness :
    parse "\x7b\"b\":\"2\",\"a\":\"1\"\x7d" = some (.obj [("b", .str "2"), ("a", .str "1")]) ∧
    noSchemaMatches "\x7b\"b\":\"2\",\"a\":\"1\"\x7d" = true ∧
    ∃ keys : List String,
      keys.Pairwise (fun a b => lessChars a.data b.data = true) ∧
      (∀ k, k ∈ keys ↔ ∃ v, (k, v) ∈ [("b", JSON.str "2"), ("a", JSON.str "1")]) ∧
      BufferToMessage (fun _ => false) "\x7b\"b\":\"2\",\"a\":\"1\"\x7d" =
        (String.join (keys.map (fallbackLine [("b", .str "2"), ("a", .str "1")])), none) :=
  ⟨rfl, by decide!,
    (C6_fallback_sorted_lines (fun _ => false) "\x7b\"b\":\"2\",\"a\":\"1\"\x7d"
      [("b", .str "2"), ("a", .str "1")] rfl (by decide) (by decide!)).1⟩


/-- C7. A buffer that is a JSON object, matches none of the four schemas and
has a member whose value is a number, a boolean, an array or an object:
`BufferToMessage` returns the empty string and an error, also when other
members hold strings. `{"a":{"nested":1}}` is such a buffer. -/
theorem C7_fallback_typed_value_error (isPrintTable : Char → Bool) (buf : String)
    (members : List (String × JSON)) (hp : parse buf = some (.obj members))
    (ht : ∃ m ∈ members, m.2.isTyped = true) (hn : noSchemaMatches buf = true) :
    BufferToMessage isPrintTable buf = ("", some (.decodingJSONToMap .unmarshalTypeError)) ∧
    BufferToMessage isPrintTable "\x7b\"a\":\x7b\"nested\":1\x7d\x7d" =
      ("", some (.decodingJSONToMap .unmarshalTypeError)) := by
  refine ⟨?_, rfl⟩
  rw [bufferToMessage_of_noMatch isPrintTable buf hn]
  exact fallback_typed buf members hp ht

/-- C7 at the buffer `{"a":"x","b":7}`, where another key holds a string. -/
theorem C7_fallback_typed_value_error_witness :
    parse "\x7b\"a\":\"x\",\"b\":7\x7d" = some (.obj [("a", .str "x"), ("b", .num "7")]) ∧
    noSchemaMatches "\x7b\"a\":\"x\",\"b\":7\x7d" = true ∧
    BufferToMessage (fun _ => false) "\x7b\"a\":\"x\",\"b\":7\x7d" =
      ("", some (.decodingJSONToMap .unmarshalTypeError)) :=
  ⟨rfl, by decide!,
    (C7_fallback_typed_value_error (fun _ => false) "\x7b\"a\":\"x\",\"b\":7\x7d"
      [("a", .str "x"), ("b", .num "7")] rfl ⟨("b", .num "7"), by simp, rfl⟩ (by decide!)).1⟩

/-- C8, as stated, fails: `{"a":null}` is a JSON object that matches none of
the four schemas and has a key whose value is `null`, and `BufferToMessage`
returns no error on it, whatever the printability table. -/
theorem C8_null_value_counterexample :
    parse "\x7b\"a\":null\x7d" = some (.obj [("a", .null)]) ∧
    noSchemaMatches "\x7b\"a\":null\x7d" = true ∧
    ¬ ∃ isPrintTable : Char → Bool,
      (BufferToMessage isPrintTable "\x7b\"a\":null\x7d").2 ≠ none := by
  refine ⟨rfl, by decide!, ?_⟩
  rintro ⟨t, h⟩
  exact h rfl

/-- C8, amended. A buffer that is a JSON object, matches none of the four
schemas and has a member whose value is `null`: the `null` is no decode
failure.  `BufferToMessage` returns an error exactly when some member holds a
number, a boolean, an array or an object; otherwise it returns no error and
the sorted lines, and a key whose last value is `null` gets the line
`<key>: ` with an empty value.  `{"a":null}` gives that line for `a`. -/
theorem C8_null_value_is_empty_text (isPrintTable : Char → Bool) (buf : String)
    (members : List (String × JSON)) (hp : parse buf = some (.obj members))
    (_hnull : ∃ m ∈ members, m.2.isNull = true) (hn : noSchemaMatches buf = true) :
    ((∃ m ∈ members, m.2.isTyped = true) →
      BufferToMessage isPrintTable buf =
        ("", some (.decodingJSONToMap .unmarshalTypeError))) ∧
    ((∀ m ∈ members, m.2.isTyped = false) →
      ∃ keys : List String,
        keys.Pairwise (fun a b => lessChars a.data b.data = true) ∧
        (∀ k, k ∈ keys ↔ ∃ v, (k, v) ∈ members) ∧
        BufferToMessage isPrintTable buf =
          (String.join (keys.map (fallbackLine members)), none)) ∧
    (∀ k, lastMember k members = some .null → fallbackLine members k = k ++ ": " ++ "\n") ∧
    BufferToMessage isPrintTable "\x7b\"a\":null\x7d" = ("a: \n", none) := by
  rw [bufferToMessage_of_noMatch isPrintTable buf hn]
  refine ⟨fallback_typed buf members hp, fallback_flat buf members hp, ?_, rfl⟩
  intro k hk
  simp [fallbackLine, hk, JSON.text]

/-- C8, amended, at the buffer `{"b":null,"a":"x"}`. -/
theorem C8_null_value_is_empty_text_witness :
    parse "\x7b\"b\":null,\"a\":\"x\"\x7d" = some (.obj [("b", .null), ("a", .str "x")]) ∧
    noSchemaMatches "\x7b\"b\":null,\"a\":\"x\"\x7d" = true ∧
    fallbackLine [("b", .null), ("a", .str "x")] "b" = "b: \n" ∧
    BufferToMessage (fun _ => false) "\x7b\"b\":null,\"a\":\"x\"\x7d" = ("a: x\nb: \n", none) := by
  have h := C8_null_value_is_empty_text (fun _ => false) "\x7b\"b\":null,\"a\":\"x\"\x7d"
    [("b", .null), ("a", .str "x")] rfl ⟨("b", .null), by simp, rfl⟩ (by decide!)
  exact ⟨rfl, by decide!, h.2.2.1 "b" rfl, by decide!⟩

/-! ## Buffers that are no JSON object -/

theorem unmarshal_malformed (t : GoType) (buf : String) (hp : parse buf = none) :
    Unmarshal t buf = (zero t, some .syntaxError) := by
  unfold Unmarshal
  rw [hp]

theorem unmarshal_struct_other (fs : List (String × GoType)) (buf : String) (v : JSON)
    (hp : parse buf = some v) (ho : v.isObject = false) (hn : v.isNull = false) :
    Unmarshal (.struct fs) buf = (zero (.struct fs), some .unmarshalTypeError) := by
  unfold Unmarshal
  rw [hp]
  cases v <;> simp_all [decode, JSON.isObject, JSON.isNull]

theorem unmarshal_map_other (e : GoType) (buf : String) (v : JSON)
    (hp : parse buf = some v) (ho : v.isObject = false) (hn : v.isNull = false) :
    Unmarshal (.map e) buf = (zero (.map e), some .unmarshalTypeError) := by
  unfold Unmarshal
  rw [hp]
  cases v <;> simp_all [decode, JSON.isObject, JSON.isNull]

theorem unmarshal_struct_null (fs : List (String × GoType)) (buf : String)
    (hp : parse buf = some .null) :
    Unmarshal (.struct fs) buf = (zero (.struct fs), none) := by
  unfold Unmarshal
  rw [hp]
  simp [decode]

theorem noSchemaMatches_of_unmarshal_error (buf : String)
    (h : ∀ fs, ∃ d e, Unmarshal (.struct fs) buf = (d, some e)) :
    noSchemaMatches buf = true := by
  obtain ⟨d1, e1, h1⟩ := h sonarrFields
  obtain ⟨d2, e2, h2⟩ := h lidarrFields
  obtain ⟨d3, e3, h3⟩ := h googleCloudFields
  obtain ⟨d4, e4, h4⟩ := h plexFields
  simp [noSchemaMatches, matchesSonarr, matchesLidarr, matchesGoogleCloud, matchesPlex,
    schemaMatches, jsonToSonarr, jsonToLidarr, jsonToGoogleCloud, jsonToPlex, h1, h2, h3, h4]

theorem noSchemaMatches_of_null (buf : String) (hp : parse buf = some .null) :
    noSchemaMatches buf = true := by
  simp only [noSchemaMatches, matchesSonarr, matchesLidarr, matchesGoogleCloud, matchesPlex,
    schemaMatches, jsonToSonarr, jsonToLidarr, jsonToGoogleCloud, jsonToPlex,
    unmarshal_struct_null _ buf hp]
  decide!

/-- C9, as stated, fails: the buffer `null` is a well-formed JSON value that
is no object, and `BufferToMessage` returns the empty string and no error on
it, whatever the printability table. -/
theorem C9_top_level_null_counterexample :
    parse "null" = some .null ∧
    ¬ ∃ isPrintTable : Char → Bool, (BufferToMessage isPrintTable "null").2 ≠ none := by
  refine ⟨rfl, ?_⟩
  rintro ⟨t, h⟩
  exact h rfl

/-- C9, amended. `BufferToMessage` returns the empty string and an error on
every buffer that is malformed text, and on every buffer that is a well-formed
JSON value other than an object and other than `null` (an array, a number, a
string, a boolean); on a buffer that is the literal `null` it returns the
empty string and no error. -/
theorem C9_non_object_buffers (isPrintTable : Char → Bool) (buf : String) :
    (parse buf = none →
      BufferToMessage isPrintTable buf = ("", some (.decodingJSONToMap .syntaxError))) ∧
    (∀ v, parse buf = some v → v.isObject = false → v.isNull = false →
      BufferToMessage isPrintTable buf =
        ("", some (.decodingJSONToMap .unmarshalTypeError))) ∧
    (parse buf = some .null → BufferToMessage isPrintTable buf = ("", none)) := by
  refine ⟨?_, ?_, ?_⟩
  · intro hp
    rw [bufferToMessage_of_noMatch isPrintTable buf
      (noSchemaMatches_of_unmarshal_error buf (fun fs => ⟨_, _, unmarshal_malformed _ buf hp⟩))]
    unfold fallback
    rw [unmarshal_malformed _ buf hp]
  · intro v hp ho hn
    rw [bufferToMessage_of_noMatch isPrintTable buf
      (noSchemaMatches_of_unmarshal_error buf
        (fun fs => ⟨_, _, unmarshal_struct_other fs buf v hp ho hn⟩))]
    unfold fallback
    rw [unmarshal_map_other _ buf v hp ho hn]
  · intro hp
    rw [bufferToMessage_of_noMatch isPrintTable buf (noSchemaMatches_of_null buf hp)]
    unfold fallback Unmarshal
    rw [hp]
    simp only [decode]
    rfl

/-- C9, amended, at the buffers `{"a":` (malformed), `[1]`, `7`, `"s"`,
`true` and ` null `. -/
theorem C9_non_object_buffers_witness :
    BufferToMessage (fun _ => false) "\x7b\"a\":" =
      ("", some (.decodingJSONToMap .syntaxError)) ∧
    BufferToMessage (fun _ => false) "[1]" =
      ("", some (.decodingJSONToMap .unmarshalTypeError)) ∧
    BufferToMessage (fun _ => false) "7" =
      ("", some (.decodingJSONToMap .unmarshalTypeError)) ∧
    BufferToMessage (fun _ => false) "\"s\"" =
      ("", some (.decodingJSONToMap .unmarshalTypeError)) ∧
    BufferToMessage (fun _ => false) "true" =
      ("", some (.decodingJSONToMap .unmarshalTypeError)) ∧
    BufferToMessage (fun _ => false) " null " = ("", none) :=
  ⟨(C9_non_object_buffers (fun _ => false) "\x7b\"a\":").1 rfl,
    (C9_non_object_buffers (fun _ => false) "[1]").2.1 (.arr [.num "1"]) rfl rfl rfl,
    (C9_non_object_buffers (fun _ => false) "7").2.1 (.num "7") rfl rfl rfl,
    (C9_non_object_buffers (fun _ => false) "\"s\"").2.1 (.str "s") rfl rfl rfl,
    (C9_non_object_buffers (fun _ => false) "true").2.1 (.bool true) rfl rfl rfl,
    (C9_non_object_buffers (fun _ => false) " null ").2.2 rfl⟩

/-! ## What the decoders accept and what they ignore -/

theorem foldl_filterMap_step {α β γ : Type} (f : α → Option β) (g : γ → β → γ)
    (l : List α) (init : γ) :
    (l.filterMap f).foldl g init =
      l.foldl (fun acc a => match f a with
        | some b => g acc b
        | none => acc) init := by
  induction l generalizing init with
  | nil => rfl
  | cons a l ih =>
    simp only [List.filterMap_cons, List.foldl_cons]
    cases f a with
    | none => exact ih init
    | some b => simp only [List.foldl_cons]; exact ih _

theorem struct_fold_prune (fs : List (String × GoType))
    (h : ∀ name vals x, decodeField fs name vals (pruneField fs name x) =
      decodeField fs name vals x)
    (ms : List (String × JSON)) (init : List GoVal × Bool) :
    (ms.filterMap (fun m =>
        match findField fs m.1 with
        | some name => some (m.1, pruneField fs name m.2)
        | none => none)).foldl (fun (acc : List GoVal × Bool) m =>
        match findField fs m.1 with
        | some name =>
          let d := decodeField fs name acc.1 m.2
          (d.1, acc.2 || d.2)
        | none => acc) init =
      ms.foldl (fun (acc : List GoVal × Bool) m =>
        match findField fs m.1 with
        | some name =>
          let d := decodeField fs name acc.1 m.2
          (d.1, acc.2 || d.2)
        | none => acc) init := by
  induction ms generalizing init with
  | nil => rfl
  | cons m ms ih =>
    simp only [List.filterMap_cons, List.foldl_cons]
    cases hf : findField fs m.1 with
    | none => exact ih init
    | some name =>
      simp only [List.foldl_cons, hf, h]
      exact ih _

mutual
theorem decode_prune : ∀ (t : GoType) (cur : GoVal) (x : JSON),
    decode t cur (prune t x) = decode t cur x
  | .string, cur, x => by simp [prune]
  | .int, cur, x => by simp [prune]
  | .bool, cur, x => by simp [prune]
  | .float64, cur, x => by simp [prune]
  | .iface, cur, x => by simp [prune]
  | .slice e, cur, x => by
    cases x with
    | arr xs =>
      simp only [prune, decode, List.foldl_map]
      simp only [decode_prune e]
    | _ => simp [prune]
  | .map e, cur, x => by
    cases x with
    | obj ms =>
      simp only [prune, decode, List.foldl_map]
      simp only [decode_prune e]
    | _ => simp [prune]
  | .struct fs, cur, x => by
    cases x with
    | obj ms =>
      simp only [prune, decode]
      exact congrArg (fun r : List GoVal × Bool => (GoVal.struct r.1, r.2))
        (struct_fold_prune fs (decodeField_prune fs) ms _)
    | _ => simp [prune]
theorem decodeField_prune : ∀ (fs : List (String × GoType)) (name : String)
    (vals : List GoVal) (x : JSON),
    decodeField fs name vals (pruneField fs name x) = decodeField fs name vals x
  | [], name, vals, x => by simp [pruneField]
  | (n, t) :: fs, name, [], x => by simp [decodeField]
  | (n, t) :: fs, name, v :: vals, x => by
    by_cases h : n = name
    · simp only [pruneField, decodeField, h, ↓reduceIte, decode_prune t]
    · simp only [pruneField, decodeField, h, ↓reduceIte, decodeField_prune fs name]
end


mutual
theorem hasType_zero : ∀ t : GoType, hasType t (zero t) = true
  | .string => by simp [hasType, zero]
  | .int => by simp [hasType, zero]
  | .bool => by simp [hasType, zero]
  | .float64 => by simp [hasType, zero]
  | .iface => by simp [hasType, zero]
  | .slice e => by simp [hasType, zero]
  | .map e => by simp [hasType, zero]
  | .struct fs => by simp [hasType, zero, hasTypeFields_zeroFields fs]
theorem hasTypeFields_zeroFields : ∀ fs : List (String × GoType),
    hasTypeFields fs (zeroFields fs) = true
  | [] => by simp [hasTypeFields, zeroFields]
  | (n, t) :: fs => by
    simp [hasTypeFields, zeroFields, hasType_zero t, hasTypeFields_zeroFields fs]
end


theorem struct_fold_spec (fs : List (String × GoType))
    (h : ∀ name vals x, hasTypeFields fs vals = true →
      hasTypeFields fs (decodeField fs name vals x).1 = true ∧
      (decodeField fs name vals x).2 = !conformsField fs name x)
    (ms : List (String × JSON)) (init : List GoVal × Bool)
    (hinit : hasTypeFields fs init.1 = true) :
    hasTypeFields fs (ms.foldl (fun (acc : List GoVal × Bool) m =>
        match findField fs m.1 with
        | some name =>
          let d := decodeField fs name acc.1 m.2
          (d.1, acc.2 || d.2)
        | none => acc) init).1 = true ∧
    (ms.foldl (fun (acc : List GoVal × Bool) m =>
        match findField fs m.1 with
        | some name =>
          let d := decodeField fs name acc.1 m.2
          (d.1, acc.2 || d.2)
        | none => acc) init).2 =
      (init.2 || !ms.all (fun m =>
        match findField fs m.1 with
        | some name => conformsField fs name m.2
        | none => true)) := by
  induction ms generalizing init with
  | nil => simp [hinit]
  | cons m ms ih =>
    simp only [List.foldl_cons, List.all_cons]
    cases hf : findField fs m.1 with
    | none =>
      obtain ⟨h1, h2⟩ := ih init hinit
      exact ⟨h1, by rw [h2]; simp⟩
    | some name =>
      obtain ⟨hd1, hd2⟩ := h name init.1 m.2 hinit
      obtain ⟨h1, h2⟩ := ih ((decodeField fs name init.1 m.2).1,
        init.2 || (decodeField fs name init.1 m.2).2) hd1
      refine ⟨h1, ?_⟩
      rw [h2]
      simp only [hd2, hf]
      cases init.2 <;> cases conformsField fs name m.2 <;> simp

theorem mapSet_all (p : String × GoVal → Bool) (es : List (String × GoVal)) (k : String)
    (x : GoVal) (hes : es.all p = true) (hx : p (k, x) = true) :
    (mapSet es k x).all p = true := by
  induction es with
  | nil => simp [mapSet, hx]
  | cons e es ih =>
    obtain ⟨a, b⟩ := e
    simp only [List.all_cons, Bool.and_eq_true] at hes
    by_cases ha : a = k
    · simp [mapSet, ha, hx, hes.2]
    · simp [mapSet, ha, hes.1, ih hes.2]

theorem map_fold_spec (e : GoType)
    (h : ∀ cur x, hasType e cur = true →
      hasType e (decode e cur x).1 = true ∧ (decode e cur x).2 = !conforms e x)
    (ms : List (String × JSON)) (init : List (String × GoVal) × Bool)
    (hinit : init.1.all (fun p => hasType e p.2) = true) :
    (ms.foldl (fun (acc : List (String × GoVal) × Bool) m =>
        let d := decode e (zero e) m.2
        (mapSet acc.1 m.1 d.1, acc.2 || d.2)) init).1.all (fun p => hasType e p.2) = true ∧
    (ms.foldl (fun (acc : List (String × GoVal) × Bool) m =>
        let d := decode e (zero e) m.2
        (mapSet acc.1 m.1 d.1, acc.2 || d.2)) init).2 =
      (init.2 || !ms.all (fun m => conforms e m.2)) := by
  induction ms generalizing init with
  | nil => simp [hinit]
  | cons m ms ih =>
    simp only [List.foldl_cons, List.all_cons]
    obtain ⟨hd1, hd2⟩ := h (zero e) m.2 (hasType_zero e)
    obtain ⟨h1, h2⟩ := ih (mapSet init.1 m.1 (decode e (zero e) m.2).1,
      init.2 || (decode e (zero e) m.2).2) (mapSet_all _ _ _ _ hinit hd1)
    refine ⟨h1, ?_⟩
    rw [h2, hd2]
    cases init.2 <;> cases conforms e m.2 <;> simp

theorem getD_all (p : GoVal → Bool) (l : List GoVal) (i : Nat) (d : GoVal)
    (hl : l.all p = true) (hd : p d = true) : p (l.getD i d) = true := by
  rw [List.all_eq_true] at hl
  rw [List.getD_eq_getElem?_getD]
  cases hi : l[i]? with
  | none => simpa using hd
  | some x => exact hl x (List.getElem?_mem hi)

theorem set_all (p : GoVal → Bool) (l : List GoVal) (i : Nat) (x : GoVal)
    (hl : l.all p = true) (hx : p x = true) : (l.set i x).all p = true := by
  rw [List.all_eq_true] at hl ⊢
  intro y hy
  rcases List.mem_or_eq_of_mem_set hy with h | h
  · exact hl y h
  · rw [h]; exact hx

theorem grow_all (p : GoVal → Bool) (z : GoVal) (st : SliceLoop)
    (hl : st.backing.all p = true) (hz : p z = true) : (st.grow z).backing.all p = true := by
  unfold SliceLoop.grow
  simp only
  split
  · rw [List.all_eq_true] at hl ⊢
    intro y hy
    rcases List.mem_append.mp hy with h | h
    · exact hl y (List.mem_of_mem_take h)
    · rw [(List.mem_replicate.mp h).2]; exact hz
  · exact hl

theorem slice_fold_spec (e : GoType)
    (h : ∀ cur x, hasType e cur = true →
      hasType e (decode e cur x).1 = true ∧ (decode e cur x).2 = !conforms e x)
    (xs : List JSON) (init : SliceLoop) (hinit : init.backing.all (hasType e) = true) :
    (xs.foldl (fun (st : SliceLoop) y =>
        let st := st.grow (zero e)
        let d := decode e (st.backing.getD st.i (zero e)) y
        { st with i := st.i + 1, backing := st.backing.set st.i d.1, err := st.err || d.2 })
        init).backing.all (hasType e) = true ∧
    (xs.foldl (fun (st : SliceLoop) y =>
        let st := st.grow (zero e)
        let d := decode e (st.backing.getD st.i (zero e)) y
        { st with i := st.i + 1, backing := st.backing.set st.i d.1, err := st.err || d.2 })
        init).err = (init.err || !xs.all (conforms e)) := by
  induction xs generalizing init with
  | nil => simp [hinit]
  | cons y ys ih =>
    simp only [List.foldl_cons, List.all_cons]
    have hg := grow_all (hasType e) (zero e) init hinit (hasType_zero e)
    obtain ⟨hd1, hd2⟩ := h ((init.grow (zero e)).backing.getD (init.grow (zero e)).i (zero e)) y
      (getD_all _ _ _ _ hg (hasType_zero e))
    obtain ⟨h1, h2⟩ := ih
      { init.grow (zero e) with
        i := (init.grow (zero e)).i + 1,
        backing := (init.grow (zero e)).backing.set (init.grow (zero e)).i
          (decode e ((init.grow (zero e)).backing.getD (init.grow (zero e)).i (zero e)) y).1,
        err := (init.grow (zero e)).err ||
          (decode e ((init.grow (zero e)).backing.getD (init.grow (zero e)).i (zero e)) y).2 }
      (set_all (hasType e) _ (init.grow (zero e)).i _ hg hd1)
    refine ⟨h1, ?_⟩
    rw [h2]
    simp only [hd2]
    have : (init.grow (zero e)).err = init.err := rfl
    rw [this]
    cases init.err <;> cases conforms e y <;> simp


mutual
theorem decode_spec : ∀ (t : GoType) (cur : GoVal) (x : JSON), hasType t cur = true →
    hasType t (decode t cur x).1 = true ∧ (decode t cur x).2 = !conforms t x
  | .string, cur, x, h => by cases x <;> simp_all [decode, conforms, hasType]
  | .int, cur, x, h => by
    cases x with
    | num lit => cases hp : parseInt lit <;> simp_all [decode, conforms, hasType]
    | _ => simp_all [decode, conforms, hasType]
  | .bool, cur, x, h => by cases x <;> simp_all [decode, conforms, hasType]
  | .float64, cur, x, h => by
    cases x with
    | num lit => cases hp : floatOverflows lit <;> simp_all [decode, conforms, hasType]
    | _ => simp_all [decode, conforms, hasType]
  | .iface, cur, x, _ => by simp [decode, conforms, hasType]
  | .slice e, cur, x, h => by
    cases x with
    | arr xs =>
      cases cur with
      | slice len backing =>
        simp only [hasType] at h
        obtain ⟨h1, h2⟩ := slice_fold_spec e (decode_spec e) xs
          { i := 0, len := len, backing := backing, err := false } h
        simp only [decode, conforms]
        split
        · exact ⟨by simp [hasType], by rw [h2]; simp⟩
        · exact ⟨by simpa [hasType] using h1, by rw [h2]; simp⟩
      | _ => simp [hasType] at h
    | _ => simp_all [decode, conforms, hasType]
  | .map e, cur, x, h => by
    cases x with
    | obj ms =>
      cases cur with
      | map es =>
        simp only [hasType] at h
        obtain ⟨h1, h2⟩ := map_fold_spec e (decode_spec e) ms (es, false) h
        simp only [decode, conforms]
        exact ⟨by simpa [hasType] using h1, by rw [h2]; simp⟩
      | _ => simp [hasType] at h
    | _ => simp_all [decode, conforms, hasType]
  | .struct fs, cur, x, h => by
    cases x with
    | obj ms =>
      cases cur with
      | struct vals =>
        simp only [hasType] at h
        obtain ⟨h1, h2⟩ := struct_fold_spec fs (decodeField_spec fs) ms (vals, false) h
        simp only [decode, conforms]
        exact ⟨by simpa [hasType] using h1, by rw [h2]; simp⟩
      | _ => simp [hasType] at h
    | _ => simp_all [decode, conforms, hasType]
theorem decodeField_spec : ∀ (fs : List (String × GoType)) (name : String)
    (vals : List GoVal) (x : JSON), hasTypeFields fs vals = true →
    hasTypeFields fs (decodeField fs name vals x).1 = true ∧
    (decodeField fs name vals x).2 = !conformsField fs name x
  | [], name, vals, x, h => by
    cases vals <;> simp_all [decodeField, conformsField, hasTypeFields]
  | (n, t) :: fs, name, [], x, h => by simp [hasTypeFields] at h
  | (n, t) :: fs, name, v :: vals, x, h => by
    simp only [hasTypeFields, Bool.and_eq_true] at h
    by_cases hn : n = name
    · obtain ⟨h1, h2⟩ := decode_spec t v x h.1
      simp [decodeField, conformsField, hn, hasTypeFields, h1, h2, h.2]
    · obtain ⟨h1, h2⟩ := decodeField_spec fs name vals x h.2
      simp [decodeField, conformsField, hn, hasTypeFields, h1, h2, h.1]
end

theorem unmarshal_ok_iff (t : GoType) (buf : String) :
    (Unmarshal t buf).2 = none ↔ ∃ x, parse buf = some x ∧ conforms t x = true := by
  unfold Unmarshal
  cases hp : parse buf with
  | none => simp
  | some x =>
    have h := (decode_spec t (zero t) x (hasType_zero t)).2
    cases hc : conforms t x <;> simp [h, hc]


theorem unmarshal_eq_of_prune_eq (t : GoType) (buf buf' : String) (x x' : JSON)
    (hp : parse buf = some x) (hp' : parse buf' = some x') (h : prune t x = prune t x') :
    Unmarshal t buf = Unmarshal t buf' := by
  unfold Unmarshal
  rw [hp, hp']
  simp only
  rw [← decode_prune t (zero t) x, ← decode_prune t (zero t) x', h]

theorem prune_drop_member (fs : List (String × GoType)) (ms1 ms2 : List (String × JSON))
    (k : String) (v : JSON) (hk : findField fs k = none) :
    prune (.struct fs) (.obj (ms1 ++ (k, v) :: ms2)) = prune (.struct fs) (.obj (ms1 ++ ms2)) := by
  simp [prune, List.filterMap_append, hk]

theorem conforms_drop_member (fs : List (String × GoType)) (ms1 ms2 : List (String × JSON))
    (k : String) (v : JSON) (hk : findField fs k = none) :
    conforms (.struct fs) (.obj (ms1 ++ (k, v) :: ms2)) =
      conforms (.struct fs) (.obj (ms1 ++ ms2)) := by
  simp [conforms, List.all_append, hk]

/-- C10, as stated, fails: both buffers are well-formed JSON objects,
`{"eventType":"Grab","series":{"id":"x"},"episodes":[{}]}` and
`{"eventType":"Grab","series":{"id":7},"episodes":[{}]}`; they differ in
`series.id` only; `jsonToSonarr` fails on the first, and the Sonarr schema
matches the second and not the first. -/
theorem C10_declared_field_counterexample :
    (parse "\x7b\"eventType\":\"Grab\",\"series\":\x7b\"id\":\"x\"\x7d,\"episodes\":[\x7b\x7d]\x7d").map
      JSON.isObject = some true ∧
    (parse "\x7b\"eventType\":\"Grab\",\"series\":\x7b\"id\":7\x7d,\"episodes\":[\x7b\x7d]\x7d").map
      JSON.isObject = some true ∧
    jsonToSonarr "\x7b\"eventType\":\"Grab\",\"series\":\x7b\"id\":\"x\"\x7d,\"episodes\":[\x7b\x7d]\x7d" =
      none ∧
    matchesSonarr "\x7b\"eventType\":\"Grab\",\"series\":\x7b\"id\":\"x\"\x7d,\"episodes\":[\x7b\x7d]\x7d" =
      false ∧
    matchesSonarr "\x7b\"eventType\":\"Grab\",\"series\":\x7b\"id\":7\x7d,\"episodes\":[\x7b\x7d]\x7d" =
      true := by
  refine ⟨by decide!, by decide!, by decide!, by decide!, by decide!⟩

/-- C10, amended. Each of the four decoders succeeds on a buffer exactly when
the buffer is well-formed JSON and the value fits the schema's type: every
member that names a declared field, at any depth, holds `null` or a value of
the field's type.  Members that name no declared field are ignored whatever
they hold: two buffers whose values agree once such members are removed, at
every depth, give the same result under the decoder; removing such a member
at top level changes neither the pruned value nor whether the value fits. -/
theorem C10_decoders_on_objects :
    (∀ buf, (jsonToSonarr buf).isSome = true ↔
      ∃ x, parse buf = some x ∧ conforms (.struct sonarrFields) x = true) ∧
    (∀ buf, (jsonToLidarr buf).isSome = true ↔
      ∃ x, parse buf = some x ∧ conforms (.struct lidarrFields) x = true) ∧
    (∀ buf, (jsonToGoogleCloud buf).isSome = true ↔
      ∃ x, parse buf = some x ∧ conforms (.struct googleCloudFields) x = true) ∧
    (∀ buf, (jsonToPlex buf).isSome = true ↔
      ∃ x, parse buf = some x ∧ conforms (.struct plexFields) x = true) ∧
    (∀ buf buf' x x', parse buf = some x → parse buf' = some x' →
      (prune (.struct sonarrFields) x = prune (.struct sonarrFields) x' →
        jsonToSonarr buf = jsonToSonarr buf') ∧
      (prune (.struct lidarrFields) x = prune (.struct lidarrFields) x' →
        jsonToLidarr buf = jsonToLidarr buf') ∧
      (prune (.struct googleCloudFields) x = prune (.struct googleCloudFields) x' →
        jsonToGoogleCloud buf = jsonToGoogleCloud buf') ∧
      (prune (.struct plexFields) x = prune (.struct plexFields) x' →
        jsonToPlex buf = jsonToPlex buf')) ∧
    (∀ fs ms1 ms2 k v, findField fs k = none →
      prune (.struct fs) (.obj (ms1 ++ (k, v) :: ms2)) = prune (.struct fs) (.obj (ms1 ++ ms2)) ∧
      conforms (.struct fs) (.obj (ms1 ++ (k, v) :: ms2)) =
        conforms (.struct fs) (.obj (ms1 ++ ms2))) := by
  have hsome : ∀ (fs : List (String × GoType)) (buf : String) {α : Type} (f : GoVal → α),
      (match Unmarshal (.struct fs) buf with
        | (_, some _) => (none : Option α)
        | (data, none) => some (f data)).isSome = true ↔
      ∃ x, parse buf = some x ∧ conforms (.struct fs) x = true := by
    intro fs buf α f
    rw [← unmarshal_ok_iff]
    rcases Unmarshal (.struct fs) buf with ⟨d, _ | e⟩ <;> simp
  refine ⟨fun buf => hsome sonarrFields buf _, fun buf => hsome lidarrFields buf _,
    fun buf => hsome googleCloudFields buf _, fun buf => hsome plexFields buf _, ?_, ?_⟩
  · intro buf buf' x x' hp hp'
    refine ⟨fun h => ?_, fun h => ?_, fun h => ?_, fun h => ?_⟩
    · unfold jsonToSonarr
      rw [unmarshal_eq_of_prune_eq _ buf buf' x x' hp hp' h]
    · unfold jsonToLidarr
      rw [unmarshal_eq_of_prune_eq _ buf buf' x x' hp hp' h]
    · unfold jsonToGoogleCloud
      rw [unmarshal_eq_of_prune_eq _ buf buf' x x' hp hp' h]
    · unfold jsonToPlex
      rw [unmarshal_eq_of_prune_eq _ buf buf' x x' hp hp' h]
  · intro fs ms1 ms2 k v hk
    exact ⟨prune_drop_member fs ms1 ms2 k v hk, conforms_drop_member fs ms1 ms2 k v hk⟩

/-- C10, amended, at the buffers
`{"eventType":"Grab","episodes":[{"seasonNumber":1,"foo":[1,2]}],"bar":true}` and
`{"eventType":"Grab","episodes":[{"seasonNumber":1,"foo":"z"}]}`, which differ
in members that name no field of `Sonarr`: both decode, to the same value. -/
theorem C10_decoders_on_objects_witness :
    jsonToSonarr "\x7b\"eventType\":\"Grab\",\"episodes\":[\x7b\"seasonNumber\":1,\"foo\":[1,2]\x7d],\"bar\":true\x7d" =
      jsonToSonarr "\x7b\"eventType\":\"Grab\",\"episodes\":[\x7b\"seasonNumber\":1,\"foo\":\"z\"\x7d]\x7d" ∧
    (jsonToSonarr "\x7b\"eventType\":\"Grab\",\"episodes\":[\x7b\"seasonNumber\":1,\"foo\":[1,2]\x7d],\"bar\":true\x7d").isSome =
      true :=
  ⟨(C10_decoders_on_objects.2.2.2.2.1
      "\x7b\"eventType\":\"Grab\",\"episodes\":[\x7b\"seasonNumber\":1,\"foo\":[1,2]\x7d],\"bar\":true\x7d"
      "\x7b\"eventType\":\"Grab\",\"episodes\":[\x7b\"seasonNumber\":1,\"foo\":\"z\"\x7d]\x7d"
      _ _ rfl rfl).1 rfl,
    (C10_decoders_on_objects.1 _).mpr ⟨_, rfl, by decide!⟩⟩

/-! ## The formatters -/

theorem digitChar_ne_newline (n : Nat) (h : n < 10) : Nat.digitChar n ≠ '\n' := by
  interval_cases n <;> decide

theorem toDigitsCore_no_newline (fuel n : Nat) (ds : List Char) (h : '\n' ∉ ds) :
    '\n' ∉ Nat.toDigitsCore 10 fuel n ds := by
  induction fuel generalizing n ds with
  | zero => simpa [Nat.toDigitsCore] using h
  | succ fuel ih =>
    have hd : '\n' ∉ Nat.digitChar (n % 10) :: ds := by
      simp only [List.mem_cons, not_or]
      exact ⟨fun e => digitChar_ne_newline _ (Nat.mod_lt _ (by decide)) e.symm, h⟩
    simp only [Nat.toDigitsCore]
    split
    · exact hd
    · exact ih _ _ hd

theorem repr_no_newline (n : Nat) : '\n' ∉ (Nat.repr n).data := by
  simp only [Nat.repr, Nat.toDigits, List.asString]
  exact toDigitsCore_no_newline _ _ _ (by simp)

theorem fmtD_no_newline (n : Int) : '\n' ∉ (fmtD n).data := by
  unfold fmtD
  split
  · simp only [String.data_append, List.mem_append, not_or]
    exact ⟨by decide, repr_no_newline _⟩
  · exact repr_no_newline _

theorem fmt02d_no_newline (n : Int) : '\n' ∉ (fmt02d n).data := by
  unfold fmt02d
  split
  · simp only [String.data_append, List.mem_append, not_or]
    exact ⟨by decide, repr_no_newline _⟩
  · split
    · simp only [String.data_append, List.mem_append, not_or]
      exact ⟨by decide, repr_no_newline _⟩
    · exact repr_no_newline _

theorem lowerhex_ne_newline (n : Nat) : lowerhex n ≠ '\n' := by
  unfold lowerhex
  rw [List.getD_eq_getElem?_getD]
  cases h : ("0123456789abcdef".data)[n]? with
  | none => decide
  | some c =>
    have hm := List.getElem?_mem h
    intro e
    simp only [Option.getD_some] at e
    subst e
    exact absurd hm (by decide)

theorem appendEscapedRune_no_newline (t : Char → Bool) (r : Char) :
    '\n' ∉ appendEscapedRune t r := by
  have hx := lowerhex_ne_newline
  have hp : IsPrint t '\n' = false := by simp [IsPrint]
  unfold appendEscapedRune
  by_cases h1 : r = '"' ∨ r = '\\'
  · rw [if_pos h1]
    rcases h1 with h | h <;> subst h <;> decide
  rw [if_neg h1]
  by_cases h2 : IsPrint t r = true
  · rw [if_pos h2]
    intro hm
    simp only [List.mem_singleton] at hm
    subst hm
    rw [hp] at h2
    exact absurd h2 (by decide)
  rw [if_neg h2]
  by_cases c0 : r.toNat = 7
  · rw [if_pos c0]; decide
  rw [if_neg c0]
  by_cases c1 : r.toNat = 8
  · rw [if_pos c1]; decide
  rw [if_neg c1]
  by_cases c2 : r.toNat = 12
  · rw [if_pos c2]; decide
  rw [if_neg c2]
  by_cases c3 : r = '\n'
  · rw [if_pos c3]; decide
  rw [if_neg c3]
  by_cases c4 : r = '\r'
  · rw [if_pos c4]; decide
  rw [if_neg c4]
  by_cases c5 : r = '\t'
  · rw [if_pos c5]; decide
  rw [if_neg c5]
  by_cases c6 : r.toNat = 11
  · rw [if_pos c6]; decide
  rw [if_neg c6]
  by_cases c7 : r.toNat < 0x20
  · rw [if_pos c7]
    simp only [List.mem_cons, List.mem_singleton, List.not_mem_nil, not_or, or_false]
    exact ⟨by decide, by decide, fun e => hx _ e.symm, fun e => hx _ e.symm⟩
  rw [if_neg c7]
  by_cases c8 : r.toNat < 0x10000
  · rw [if_pos c8]
    simp only [List.mem_cons, List.mem_singleton, List.not_mem_nil, not_or, or_false]
    exact ⟨by decide, by decide, fun e => hx _ e.symm, fun e => hx _ e.symm,
      fun e => hx _ e.symm, fun e => hx _ e.symm⟩
  rw [if_neg c8]
  simp only [List.mem_cons, List.mem_singleton, List.not_mem_nil, not_or, or_false]
  exact ⟨by decide, by decide, fun e => hx _ e.symm, fun e => hx _ e.symm,
    fun e => hx _ e.symm, fun e => hx _ e.symm, fun e => hx _ e.symm, fun e => hx _ e.symm,
    fun e => hx _ e.symm, fun e => hx _ e.symm⟩

theorem fmtQ_no_newline (t : Char → Bool) (s : String) : '\n' ∉ (fmtQ t s).data := by
  simp only [fmtQ, List.mem_cons, List.mem_append, List.mem_flatMap, List.mem_singleton,
    not_or, not_exists, not_and]
  refine ⟨by decide, fun c _ => appendEscapedRune_no_newline t c, ?_, by simp⟩
  decide

theorem endsWithNewline_append (a b : String) (hb : endsWithNewline b) :
    endsWithNewline (a ++ b) := by
  unfold endsWithNewline at hb ⊢
  rw [String.data_append]
  cases hbd : b.data with
  | nil => rw [hbd] at hb; simp at hb
  | cons c cs =>
    rw [hbd] at hb
    rw [List.getLast?_append_of_ne_nil _ (by simp)]
    exact hb

theorem terminated_append (a b : String) (ha : a = "" ∨ endsWithNewline a)
    (hb : b = "" ∨ endsWithNewline b) : a ++ b = "" ∨ endsWithNewline (a ++ b) := by
  rcases hb with hb | hb
  · subst hb
    simpa using ha
  · exact Or.inr (endsWithNewline_append a b hb)

theorem endsWithNewline_line (s : String) : endsWithNewline (s ++ "\n") :=
  endsWithNewline_append s "\n" rfl

theorem terminated_foldl {α : Type} (f : α → String) (l : List α) (init : String)
    (hi : init = "" ∨ endsWithNewline init) (hf : ∀ x, endsWithNewline (f x)) :
    l.foldl (fun msg x => msg ++ f x) init = "" ∨
      endsWithNewline (l.foldl (fun msg x => msg ++ f x) init) := by
  induction l generalizing init with
  | nil => exact hi
  | cons x xs ih => exact ih _ (Or.inr (endsWithNewline_append _ _ (hf x)))

theorem sonarr_message_terminated (t : Char → Bool) (j : Sonarr) :
    j.Message t = "" ∨ endsWithNewline (j.Message t) :=
  terminated_foldl _ _ _ (Or.inl rfl) (fun _ => endsWithNewline_line _)

theorem lidarr_message_terminated (t : Char → Bool) (j : Lidarr) :
    j.Message t = "" ∨ endsWithNewline (j.Message t) :=
  terminated_foldl _ _ _ (Or.inl rfl) (fun _ => endsWithNewline_line _)

theorem contribution_terminated {α : Type} (data : Option α) (valid : α → Bool)
    (message : α → String) (h : ∀ d, message d = "" ∨ endsWithNewline (message d)) :
    contribution data valid message = "" ∨
      endsWithNewline (contribution data valid message) := by
  unfold contribution
  cases data with
  | none => exact Or.inl rfl
  | some d =>
    simp only
    split
    · exact h d
    · exact Or.inl rfl

theorem schemaMessage_terminated (t : Char → Bool) (buf : String) :
    schemaMessage t buf = "" ∨ endsWithNewline (schemaMessage t buf) := by
  rw [schemaMessage_eq]
  exact terminated_append _ _
    (terminated_append _ _
      (terminated_append _ _
        (contribution_terminated _ _ _ (sonarr_message_terminated t))
        (contribution_terminated _ _ _ (lidarr_message_terminated t)))
      (contribution_terminated _ _ _ (fun d => Or.inr (endsWithNewline_line _))))
    (contribution_terminated _ _ _ (fun d => Or.inr (endsWithNewline_line _)))

theorem fallback_terminated (buf : String) :
    (fallback buf).1 = "" ∨ endsWithNewline (fallback buf).1 := by
  unfold fallback
  rcases Unmarshal (.map .string) buf with ⟨f, _ | e⟩
  · exact terminated_foldl _ _ _ (Or.inl rfl) (fun _ => endsWithNewline_line _)
  · exact Or.inl rfl

theorem fallback_error_empty (buf : String) (h : (fallback buf).2 ≠ none) :
    (fallback buf).1 = "" := by
  unfold fallback at h ⊢
  generalize Unmarshal (.map .string) buf = u at h ⊢
  rcases u with ⟨f, _ | e⟩
  · exact absurd rfl h
  · rfl

/-- C11. `Sonarr.Message` writes one line per episode, in sequence order, each
formatted without regard to the other episodes: the message of the episodes
`A ++ B` is the message of `A` followed by that of `B`, no episode gives the
empty string, one episode gives its line, and two episodes give the two
single-episode messages in order. -/
theorem C11_series_message_per_episode (isPrintTable : Char → Bool) (j : Sonarr)
    (A B : List SonarrEpisode) :
    Sonarr.Message isPrintTable { j with Episodes := A ++ B } =
      Sonarr.Message isPrintTable { j with Episodes := A } ++
        Sonarr.Message isPrintTable { j with Episodes := B } ∧
    Sonarr.Message isPrintTable { j with Episodes := [] } = "" ∧
    (∀ ep, Sonarr.Message isPrintTable { j with Episodes := [ep] } =
      "Sonarr: " ++ j.Series.Title ++ " " ++ fmtD ep.SeasonNumber ++ "x" ++
        fmt02d ep.EpisodeNumber ++ " - " ++ fmtQ isPrintTable j.EventType ++ "\n") ∧
    (∀ e1 e2, Sonarr.Message isPrintTable { j with Episodes := [e1, e2] } =
      Sonarr.Message isPrintTable { j with Episodes := [e1] } ++
        Sonarr.Message isPrintTable { j with Episodes := [e2] }) := by
  refine ⟨?_, rfl, fun ep => ?_, fun e1 e2 => ?_⟩
  · simp only [Sonarr.Message, List.foldl_append]
    rw [foldl_append_init]
  · simp [Sonarr.Message]
  · simp only [Sonarr.Message, List.foldl_cons, List.foldl_nil, String.empty_append]

/-- C12. `Lidarr.Message` is the concatenation, in album order, of one line
per album: `Lidarr: `, the artist name as it is, ` - `, the album title quoted
by `%q`, ` - `, the event type as it is, and a newline.  No album gives the
empty string. -/
theorem C12_album_message_lines (isPrintTable : Char → Bool) (j : Lidarr) :
    Lidarr.Message isPrintTable j =
      String.join (j.Albums.map (fun al =>
        "Lidarr: " ++ j.Artist.Name ++ " - " ++ fmtQ isPrintTable al.Title ++ " - " ++
          j.EventType ++ "\n")) ∧
    Lidarr.Message isPrintTable { j with Albums := [] } = "" ∧
    (∀ A B, Lidarr.Message isPrintTable { j with Albums := A ++ B } =
      Lidarr.Message isPrintTable { j with Albums := A } ++
        Lidarr.Message isPrintTable { j with Albums := B }) := by
  refine ⟨?_, rfl, fun A B => ?_⟩
  · unfold Lidarr.Message
    rw [foldl_append_eq_join]
  · simp only [Lidarr.Message, List.foldl_append]
    rw [foldl_append_init]

/-- C13. `GoogleCloud.Message` is `GCP Alert - `, the summary quoted by `%q`,
and a newline.  It depends on the summary only (two values with the same
summary have the same message, whatever their incident identifiers), an empty
summary is written as `""`, and the message holds exactly one newline
character, its last character. -/
theorem C13_incident_message_line (isPrintTable : Char → Bool) :
    (∀ j : GoogleCloud, j.Message isPrintTable =
      "GCP Alert - " ++ fmtQ isPrintTable j.Incident.Summary ++ "\n") ∧
    (∀ j j' : GoogleCloud, j.Incident.Summary = j'.Incident.Summary →
      j.Message isPrintTable = j'.Message isPrintTable) ∧
    (∀ j : GoogleCloud, j.Incident.Summary = "" →
      j.Message isPrintTable = "GCP Alert - \"\"\n") ∧
    (∀ j : GoogleCloud, (j.Message isPrintTable).data.count '\n' = 1 ∧
      endsWithNewline (j.Message isPrintTable)) := by
  refine ⟨fun _ => rfl, fun j j' h => ?_, fun j h => ?_, fun j => ⟨?_, endsWithNewline_line _⟩⟩
  · simp only [GoogleCloud.Message, h]
  · simp only [GoogleCloud.Message, h]
    rfl
  · simp only [GoogleCloud.Message, String.data_append, List.count_append]
    rw [List.count_eq_zero_of_not_mem (fmtQ_no_newline isPrintTable _)]
    rfl

/-- C14, as stated, fails: the buffer
`{"event":"x","Metadata":{"grandparentTitle":"a\nb"}}` decodes to a Plex value
whose title holds a newline, `BufferToMessage` returns the text
`Plex - "x" : a`, a newline, `b 0x0` and a newline for it, and the message of
that value does not hold exactly one newline character, whatever the
printability table: it is two lines. -/
theorem C14_title_newline_counterexample :
    jsonToPlex "\x7b\"event\":\"x\",\"Metadata\":\x7b\"grandparentTitle\":\"a\\nb\"\x7d\x7d" =
      some ⟨"x", ⟨"a\nb", 0, 0⟩⟩ ∧
    BufferToMessage (fun _ => false) "\x7b\"event\":\"x\",\"Metadata\":\x7b\"grandparentTitle\":\"a\\nb\"\x7d\x7d" =
      ("Plex - \"x\" : a\nb 0x0\n", none) ∧
    ¬ ∃ isPrintTable : Char → Bool,
      (Plex.Message isPrintTable ⟨"x", ⟨"a\nb", 0, 0⟩⟩).data.count '\n' = 1 := by
  refine ⟨by decide!, by decide!, ?_⟩
  rintro ⟨t, h⟩
  have h' : Plex.Message t ⟨"x", ⟨"a\nb", 0, 0⟩⟩ = "Plex - \"x\" : a\nb 0x0\n" := rfl
  rw [h'] at h
  exact absurd h (by decide)

/-- C14, amended. `Plex.Message` is `Plex - `, the event quoted by `%q`, ` : `,
the grandparent title as it is, a space, the parent index and the index in
plain decimal separated by `x`, and a newline; a non-negative index is written
as `Nat.repr` writes it, with no padding (3 and 7 give `3x7`).  The message
ends with a newline and holds one newline character more than the title does:
it is exactly one line if and only if the title holds no newline. The buffer
`{"event":"media.play","Metadata":{"grandparentTitle":"Foo","parentIndex":3,"index":7}}`
gives `Plex - "media.play" : Foo 3x7`. -/
theorem C14_player_message_line (isPrintTable : Char → Bool) :
    (∀ j : Plex, j.Message isPrintTable =
      "Plex - " ++ fmtQ isPrintTable j.Event ++ " : " ++ j.Metadata.GrandparentTitle ++ " " ++
        fmtD j.Metadata.ParentIndex ++ "x" ++ fmtD j.Metadata.Index ++ "\n") ∧
    (∀ n : Nat, fmtD (n : Int) = Nat.repr n) ∧
    (∀ n : Nat, fmtD (-((n : Int) + 1)) = "-" ++ Nat.repr (n + 1)) ∧
    fmtD 3 = "3" ∧ fmtD 7 = "7" ∧ fmtD 0 = "0" ∧ fmtD 12 = "12" ∧
    (∀ j : Plex, endsWithNewline (j.Message isPrintTable)) ∧
    (∀ j : Plex, (j.Message isPrintTable).data.count '\n' =
      j.Metadata.GrandparentTitle.data.count '\n' + 1) ∧
    (∀ j : Plex, (j.Message isPrintTable).data.count '\n' = 1 ↔
      '\n' ∉ j.Metadata.GrandparentTitle.data) ∧
    (∀ j : Plex, '\n' ∉ j.Metadata.GrandparentTitle.data →
      (j.Message isPrintTable).data.count '\n' = 1) ∧
    BufferToMessage isPrintTable "\x7b\"event\":\"media.play\",\"Metadata\":\x7b\"grandparentTitle\":\"Foo\",\"parentIndex\":3,\"index\":7\x7d\x7d" =
      ("Plex - \"media.play\" : Foo 3x7\n", none) := by
  have hc : ∀ j : Plex, (j.Message isPrintTable).data.count '\n' =
      j.Metadata.GrandparentTitle.data.count '\n' + 1 := by
    intro j
    simp only [Plex.Message, String.data_append, List.count_append]
    rw [List.count_eq_zero_of_not_mem (fmtQ_no_newline isPrintTable _),
      List.count_eq_zero_of_not_mem (fmtD_no_newline _),
      List.count_eq_zero_of_not_mem (fmtD_no_newline _)]
    have e1 : List.count '\n' "Plex - ".data = 0 := by decide
    have e2 : List.count '\n' " : ".data = 0 := by decide
    have e3 : List.count '\n' " ".data = 0 := by decide
    have e4 : List.count '\n' "x".data = 0 := by decide
    have e5 : List.count '\n' "\n".data = 1 := by decide
    rw [e1, e2, e3, e4, e5]
    omega
  have hiff : ∀ j : Plex, (j.Message isPrintTable).data.count '\n' = 1 ↔
      '\n' ∉ j.Metadata.GrandparentTitle.data := by
    intro j
    rw [hc j, ← List.count_eq_zero]
    omega
  refine ⟨fun _ => rfl, fun n => ?_, fun n => ?_, by decide!, by decide!, by decide!,
    by decide!, fun j => endsWithNewline_line _, hc, hiff, fun j h => (hiff j).mpr h, rfl⟩
  · simp [fmtD]
  · have h : -((n : Int) + 1) < 0 := by omega
    have h' : (-((n : Int) + 1)).natAbs = n + 1 := by omega
    unfold fmtD
    rw [if_pos h, h']

/-- C14, amended, at the value with event `media.play`, title `Foo` and the
indices 3 and 7, whose title holds no newline. -/
theorem C14_player_message_line_witness :
    Plex.Message (fun _ => false) ⟨"media.play", ⟨"Foo", 7, 3⟩⟩ =
      "Plex - \"media.play\" : Foo 3x7\n" ∧
    (Plex.Message (fun _ => false) ⟨"media.play", ⟨"Foo", 7, 3⟩⟩).data.count '\n' = 1 :=
  ⟨(C14_player_message_line (fun _ => false)).1 _,
    (C14_player_message_line (fun _ => false)).2.2.2.2.2.2.2.2.2.2.1
      ⟨"media.play", ⟨"Foo", 7, 3⟩⟩ (by decide)⟩

/-- C15. The string `BufferToMessage` returns is empty or ends with a newline
character, for every buffer, and it is empty when an error is returned; every
fragment it is made of (a schema's message, the fallback's text) is empty or
ends with a newline. -/
theorem C15_output_newline_terminated (isPrintTable : Char → Bool) (buf : String) :
    ((BufferToMessage isPrintTable buf).1 = "" ∨
      endsWithNewline (BufferToMessage isPrintTable buf).1) ∧
    ((BufferToMessage isPrintTable buf).2 ≠ none → (BufferToMessage isPrintTable buf).1 = "") ∧
    (∀ j : Sonarr, j.Message isPrintTable = "" ∨ endsWithNewline (j.Message isPrintTable)) ∧
    (∀ j : Lidarr, j.Message isPrintTable = "" ∨ endsWithNewline (j.Message isPrintTable)) ∧
    (∀ j : GoogleCloud, endsWithNewline (j.Message isPrintTable)) ∧
    (∀ j : Plex, endsWithNewline (j.Message isPrintTable)) ∧
    ((fallback buf).1 = "" ∨ endsWithNewline (fallback buf).1) := by
  refine ⟨?_, ?_, sonarr_message_terminated isPrintTable, lidarr_message_terminated isPrintTable,
    fun _ => endsWithNewline_line _, fun _ => endsWithNewline_line _, fallback_terminated buf⟩
  · rw [bufferToMessage_eq]
    split
    · exact fallback_terminated buf
    · exact schemaMessage_terminated isPrintTable buf
  · rw [bufferToMessage_eq]
    split
    · exact fallback_error_empty buf
    · intro h
      exact absurd rfl h

/-- C18. For an episode number from 0 to 99, `%02d` writes exactly two decimal
digits, the tens and the units, so a `0` comes first below 10; the season
number goes through `%d`, which writes a non-negative number as `Nat.repr`
does, without padding.  Season 1, episode 2 gives `1x02`. -/
theorem C18_episode_two_digits (isPrintTable : Char → Bool) (n : Int) (h0 : 0 ≤ n)
    (h99 : n ≤ 99) :
    fmt02d n = String.mk [Nat.digitChar (n.toNat / 10), Nat.digitChar (n.toNat % 10)] ∧
    (n < 10 → fmt02d n = String.mk ['0', Nat.digitChar n.toNat]) ∧
    (∀ s : Nat, fmtD (s : Int) = Nat.repr s) ∧
    fmtD 1 = "1" ∧ fmt02d 2 = "02" ∧
    (∀ title tag season, Sonarr.Message isPrintTable ⟨[⟨n, season⟩], tag, ⟨title⟩⟩ =
      "Sonarr: " ++ title ++ " " ++ fmtD season ++ "x" ++
        String.mk [Nat.digitChar (n.toNat / 10), Nat.digitChar (n.toNat % 10)] ++ " - " ++
        fmtQ isPrintTable tag ++ "\n") ∧
    (∀ title tag, Sonarr.Message isPrintTable ⟨[⟨2, 1⟩], tag, ⟨title⟩⟩ =
      "Sonarr: " ++ title ++ " " ++ "1" ++ "x" ++ "02" ++ " - " ++ fmtQ isPrintTable tag ++
        "\n") := by
  have hd : fmt02d n =
      String.mk [Nat.digitChar (n.toNat / 10), Nat.digitChar (n.toNat % 10)] := by
    interval_cases n <;> rfl
  refine ⟨hd, ?_, fun s => by simp [fmtD], by decide!, by decide!, fun _ _ _ => ?_,
    fun _ _ => rfl⟩
  · intro h
    interval_cases n <;> rfl
  · simp only [Sonarr.Message, List.foldl_cons, List.foldl_nil, String.empty_append, hd]

/-- C18 at episode number 7. -/
theorem C18_episode_two_digits_witness :
    fmt02d 7 = "07" ∧
    Sonarr.Message (fun _ => false) ⟨[⟨7, 12⟩], "Grab", ⟨"Foo"⟩⟩ =
      "Sonarr: Foo 12x07 - \"Grab\"\n" :=
  ⟨(C18_episode_two_digits (fun _ => false) 7 (by decide) (by decide)).1,
    (C18_episode_two_digits (fun _ => false) 7 (by decide) (by decide)).2.2.2.2.2.1
      "Foo" "Grab" 12⟩

theorem appendEscapedRune_plain (t : Char → Bool) (c : Char)
    (h : IsPrint t c = true ∧ c ≠ '"' ∧ c ≠ '\\') : appendEscapedRune t c = [c] := by
  unfold appendEscapedRune
  rw [if_neg (by simp [h.2.1, h.2.2]), if_pos h.1]

theorem flatMap_plain (t : Char → Bool) (l : List Char)
    (h : ∀ c ∈ l, IsPrint t c = true ∧ c ≠ '"' ∧ c ≠ '\\') :
    l.flatMap (appendEscapedRune t) = l := by
  induction l with
  | nil => rfl
  | cons c cs ih =>
    rw [List.flatMap_cons, appendEscapedRune_plain t c (h c (List.mem_cons_self _ _)),
      ih (fun c' hc' => h c' (List.mem_cons_of_mem _ hc'))]
    rfl

theorem fmtQ_plain (t : Char → Bool) (s : String)
    (h : ∀ c ∈ s.data, IsPrint t c = true ∧ c ≠ '"' ∧ c ≠ '\\') :
    fmtQ t s = "\"" ++ s ++ "\"" := by
  unfold fmtQ
  rw [flatMap_plain t s.data h]
  apply String.ext
  simp

/-- C19, as stated, fails: the buffer
`{"eventType":"a\"b","series":{"title":"Foo"},"episodes":[{"seasonNumber":1,"episodeNumber":2}]}`
decodes to a Sonarr value whose event type is `a"b`, and the line of its
message does not end with ` - "`, the event type, `"` and a newline, whatever
the printability table: the quote inside the event type is written `\"`. -/
theorem C19_quoted_tag_counterexample :
    jsonToSonarr "\x7b\"eventType\":\"a\\\"b\",\"series\":\x7b\"title\":\"Foo\"\x7d,\"episodes\":[\x7b\"seasonNumber\":1,\"episodeNumber\":2\x7d]\x7d" =
      some ⟨[⟨2, 1⟩], "a\"b", ⟨"Foo"⟩⟩ ∧
    ¬ ∃ isPrintTable : Char → Bool,
      List.IsSuffix (" - \"" ++ "a\"b" ++ "\"\n").data
        (Sonarr.Message isPrintTable ⟨[⟨2, 1⟩], "a\"b", ⟨"Foo"⟩⟩).data := by
  refine ⟨by decide!, ?_⟩
  rintro ⟨t, h⟩
  have h' : Sonarr.Message t ⟨[⟨2, 1⟩], "a\"b", ⟨"Foo"⟩⟩ =
      "Sonarr: Foo 1x02 - \"a\\\"b\"\n" := rfl
  rw [h'] at h
  exact absurd h (by decide)

/-- C19, amended. The quoted text is what `%q` (`strconv.Quote`) makes of the
string: an opening double quote, the runes of the string one after the other,
each as `appendEscapedRune` writes it (`"` as `\"`, `\` as `\\`), and a
closing double quote.  When every rune of the string is printable and none is
`"` or `\`, that is the string itself between two double quotes: each line of
`Sonarr.Message` then ends with ` - "`, the event type, `"` and a newline, and
likewise for the album title, the incident summary and the player event. -/
theorem C19_quoted_tag_plain (isPrintTable : Char → Bool) (tag : String)
    (hplain : ∀ c ∈ tag.data, IsPrint isPrintTable c = true ∧ c ≠ '"' ∧ c ≠ '\\') :
    fmtQ isPrintTable tag = "\"" ++ tag ++ "\"" ∧
    (∀ title ep, Sonarr.Message isPrintTable ⟨[ep], tag, ⟨title⟩⟩ =
      "Sonarr: " ++ title ++ " " ++ fmtD ep.SeasonNumber ++ "x" ++ fmt02d ep.EpisodeNumber ++
        (" - \"" ++ tag ++ "\"" ++ "\n")) ∧
    (∀ name event, Lidarr.Message isPrintTable ⟨[⟨tag⟩], event, ⟨name⟩⟩ =
      "Lidarr: " ++ name ++ " - " ++ ("\"" ++ tag ++ "\"") ++ " - " ++ event ++ "\n") ∧
    (∀ id, GoogleCloud.Message isPrintTable ⟨⟨id, tag⟩⟩ =
      "GCP Alert - " ++ ("\"" ++ tag ++ "\"") ++ "\n") ∧
    (∀ metadata, Plex.Message isPrintTable ⟨tag, metadata⟩ =
      "Plex - " ++ ("\"" ++ tag ++ "\"") ++ " : " ++ metadata.GrandparentTitle ++ " " ++
        fmtD metadata.ParentIndex ++ "x" ++ fmtD metadata.Index ++ "\n") ∧
    (∀ s : String, fmtQ isPrintTable s =
      String.mk ('"' :: (s.data.flatMap (appendEscapedRune isPrintTable) ++ ['"']))) ∧
    appendEscapedRune isPrintTable '"' = ['\\', '"'] ∧
    appendEscapedRune isPrintTable '\\' = ['\\', '\\'] ∧
    (∀ c, IsPrint isPrintTable c = true → c ≠ '"' → c ≠ '\\' →
      appendEscapedRune isPrintTable c = [c]) := by
  have hq := fmtQ_plain isPrintTable tag hplain
  refine ⟨hq, fun title ep => ?_, fun name event => ?_, fun id => ?_, fun metadata => ?_,
    fun _ => rfl, rfl, rfl, fun c h1 h2 h3 => appendEscapedRune_plain _ c ⟨h1, h2, h3⟩⟩
  · have e : ∀ X : String, " - " ++ ("\"" ++ X) = " - \"" ++ X := fun X => by
      rw [← String.append_assoc]
      rfl
    simp only [Sonarr.Message, List.foldl_cons, List.foldl_nil, String.empty_append, hq,
      String.append_assoc, e]
  · simp only [Lidarr.Message, List.foldl_cons, List.foldl_nil, String.empty_append, hq]
  · simp only [GoogleCloud.Message, hq]
  · simp only [Plex.Message, hq]

/-- C19, amended, at the event type `Grab`. -/
theorem C19_quoted_tag_plain_witness :
    fmtQ (fun _ => false) "Grab" = "\"Grab\"" ∧
    Sonarr.Message (fun _ => false) ⟨[⟨2, 1⟩], "Grab", ⟨"Foo"⟩⟩ =
      "Sonarr: Foo 1x02 - \"Grab\"\n" := by
  have h := C19_quoted_tag_plain (fun _ => false) "Grab" (by decide)
  exact ⟨h.1, h.2.1 "Foo" ⟨2, 1⟩⟩
/-! ## The order of the keys -/

theorem strictSorted_unique (l l' : List String)
    (h : l.Pairwise (fun a b => lessChars a.data b.data = true))
    (h' : l'.Pairwise (fun a b => lessChars a.data b.data = true))
    (hm : ∀ k, k ∈ l ↔ k ∈ l') : l = l' := by
  have hne : ∀ a b : String, lessChars a.data b.data = true → a ≠ b := by
    intro a b hab e
    subst e
    rw [lessChars_asymm _ _ hab] at hab
    exact absurd hab (by decide)
  have hn : l.Nodup := h.imp (fun hab => hne _ _ hab)
  have hn' : l'.Nodup := h'.imp (fun hab => hne _ _ hab)
  have hp : l.Perm l' := (List.perm_ext_iff_of_nodup hn hn').mpr hm
  exact @List.eq_of_perm_of_sorted _ (fun a b : String => lessChars a.data b.data = true)
    ⟨fun a b hab hba => by
      rw [lessChars_asymm _ _ hab] at hba
      exact absurd hba (by decide)⟩ _ _ hp h h'

theorem sortStrings_eq_of_perm (keys keys' : List String) (h : keys.Perm keys') :
    sortStrings keys = sortStrings keys' :=
  @List.eq_of_perm_of_sorted _ StringLE
    ⟨fun _ _ hab hba => String.ext (lessChars_antisymm _ _ hba hab)⟩ _ _
    (((sortStrings_perm keys).trans h).trans (sortStrings_perm keys').symm)
    (sortStrings_sorted keys) (sortStrings_sorted keys')

theorem lastMember_eq_none (k : String) (ms : List (String × JSON))
    (h : k ∉ ms.map Prod.fst) : lastMember k ms = none := by
  induction ms with
  | nil => rfl
  | cons m ms ih =>
    simp only [List.map_cons, List.mem_cons, not_or] at h
    simp only [lastMember, ih h.2]
    rw [if_neg (fun e => h.1 e.symm)]

theorem lastMember_of_mem (ms : List (String × JSON)) (hn : (ms.map Prod.fst).Nodup)
    (k : String) (v : JSON) (h : (k, v) ∈ ms) : lastMember k ms = some v := by
  induction ms with
  | nil => simp at h
  | cons m ms ih =>
    simp only [List.map_cons, List.nodup_cons] at hn
    rcases List.mem_cons.mp h with h | h
    · subst h
      simp only [lastMember, lastMember_eq_none _ ms hn.1]
      simp
    · simp only [lastMember, ih hn.2 h]

theorem isTyped_of_isString (x : JSON) (h : x.isString = true) : x.isTyped = false := by
  cases x <;> simp_all [JSON.isString, JSON.isTyped]

theorem fallback_perm (buf buf' : String) (ms ms' : List (String × JSON))
    (hp : parse buf = some (.obj ms)) (hp' : parse buf' = some (.obj ms'))
    (hperm : ms.Perm ms') (hflat : ∀ m ∈ ms, m.2.isString = true)
    (hkeys : (ms.map Prod.fst).Nodup) : fallback buf = fallback buf' := by
  have hkeys' : (ms'.map Prod.fst).Nodup := (hperm.map Prod.fst).nodup_iff.mp hkeys
  obtain ⟨keys, hs, hm, hf⟩ := fallback_flat buf ms hp
    (fun m hmem => isTyped_of_isString _ (hflat m hmem))
  obtain ⟨keys', hs', hm', hf'⟩ := fallback_flat buf' ms' hp'
    (fun m hmem => isTyped_of_isString _ (hflat m (hperm.mem_iff.mpr hmem)))
  have hk : keys = keys' := strictSorted_unique keys keys' hs hs' (fun k => by
    rw [hm, hm']
    exact ⟨fun ⟨v, hv⟩ => ⟨v, hperm.mem_iff.mp hv⟩, fun ⟨v, hv⟩ => ⟨v, hperm.mem_iff.mpr hv⟩⟩)
  subst hk
  rw [hf, hf']
  congr 2
  apply List.map_congr_left
  intro k hkm
  obtain ⟨v, hv⟩ := (hm k).mp hkm
  simp only [fallbackLine, lastMember_of_mem ms hkeys k v hv,
    lastMember_of_mem ms' hkeys' k v (hperm.mem_iff.mp hv)]

theorem findField_fold (fs : List (String × GoType)) (k n : String)
    (h : findField fs k = some n) : n.data.map foldRune = k.data.map foldRune := by
  unfold findField at h
  cases h1 : fs.find? (fun f => f.1 == k) with
  | some f =>
    rw [h1] at h
    simp only [Option.some.injEq] at h
    have := List.find?_some h1
    simp only [beq_iff_eq] at this
    rw [← h, this]
  | none =>
    rw [h1] at h
    cases h2 : fs.find? (fun f => equalFold f.1 k) with
    | none => rw [h2] at h; simp at h
    | some f =>
      rw [h2] at h
      simp only [Option.map_some', Option.some.injEq] at h
      have := List.find?_some h2
      simp only [equalFold, beq_iff_eq] at this
      rw [← h, this]

theorem decodeField_comm (fs : List (String × GoType)) (n1 n2 : String) (hne : n1 ≠ n2)
    (vals : List GoVal) (x1 x2 : JSON) :
    (decodeField fs n2 (decodeField fs n1 vals x1).1 x2).1 =
      (decodeField fs n1 (decodeField fs n2 vals x2).1 x1).1 ∧
    (decodeField fs n2 (decodeField fs n1 vals x1).1 x2).2 = (decodeField fs n2 vals x2).2 ∧
    (decodeField fs n1 (decodeField fs n2 vals x2).1 x1).2 = (decodeField fs n1 vals x1).2 := by
  induction fs generalizing vals with
  | nil => simp [decodeField]
  | cons f fs ih =>
    obtain ⟨n, t⟩ := f
    cases vals with
    | nil => simp [decodeField]
    | cons v vals =>
      by_cases h1 : n = n1
      · have h2 : ¬ n = n2 := fun e => hne (h1.symm.trans e)
        subst h1
        simp [decodeField, h2]
      · by_cases h2 : n = n2
        · subst h2
          simp [decodeField, h1]
        · obtain ⟨i1, i2, i3⟩ := ih vals
          simp [decodeField, h1, h2, i1, i2, i3]

theorem struct_fold_perm (fs : List (String × GoType)) (ms ms' : List (String × JSON))
    (hperm : ms.Perm ms') (hfold : (ms.map (fun m => m.1.data.map foldRune)).Nodup)
    (init : List GoVal × Bool) :
    ms.foldl (fun (acc : List GoVal × Bool) m =>
        match findField fs m.1 with
        | some name =>
          let d := decodeField fs name acc.1 m.2
          (d.1, acc.2 || d.2)
        | none => acc) init =
      ms'.foldl (fun (acc : List GoVal × Bool) m =>
        match findField fs m.1 with
        | some name =>
          let d := decodeField fs name acc.1 m.2
          (d.1, acc.2 || d.2)
        | none => acc) init := by
  apply List.Perm.foldl_eq' hperm
  intro x hx y hy z
  by_cases hxy : x = y
  · rw [hxy]
  have hk : x.1.data.map foldRune ≠ y.1.data.map foldRune :=
    fun e => hxy (List.inj_on_of_nodup_map hfold hx hy e)
  cases hfx : findField fs x.1 with
  | none =>
    cases hfy : findField fs y.1 with
    | none => simp only [hfx]
    | some n2 => simp only [hfx]
  | some n1 =>
    cases hfy : findField fs y.1 with
    | none => simp only [hfx]
    | some n2 =>
      have hne : n1 ≠ n2 := by
        intro e
        apply hk
        rw [← findField_fold fs _ _ hfx, ← findField_fold fs _ _ hfy, e]
      obtain ⟨c1, c2, c3⟩ := decodeField_comm fs n1 n2 hne z.1 x.2 y.2
      simp only [hfx, c1, c2, c3]
      congr 1
      cases z.2 <;> cases (decodeField fs n1 z.1 x.2).2 <;>
        cases (decodeField fs n2 z.1 y.2).2 <;> rfl

theorem decode_struct_perm (fs : List (String × GoType)) (cur : GoVal)
    (ms ms' : List (String × JSON)) (hperm : ms.Perm ms')
    (hfold : (ms.map (fun m => m.1.data.map foldRune)).Nodup) :
    decode (.struct fs) cur (.obj ms) = decode (.struct fs) cur (.obj ms') := by
  simp only [decode]
  exact congrArg (fun r : List GoVal × Bool => (GoVal.struct r.1, r.2))
    (struct_fold_perm fs ms ms' hperm hfold _)

theorem unmarshal_struct_perm (fs : List (String × GoType)) (buf buf' : String)
    (ms ms' : List (String × JSON)) (hp : parse buf = some (.obj ms))
    (hp' : parse buf' = some (.obj ms')) (hperm : ms.Perm ms')
    (hfold : (ms.map (fun m => m.1.data.map foldRune)).Nodup) :
    Unmarshal (.struct fs) buf = Unmarshal (.struct fs) buf' := by
  unfold Unmarshal
  rw [hp, hp']
  simp only
  rw [decode_struct_perm fs _ ms ms' hperm hfold]

theorem schemaMessage_congr (t : Char → Bool) (buf buf' : String)
    (h1 : jsonToSonarr buf = jsonToSonarr buf') (h2 : jsonToLidarr buf = jsonToLidarr buf')
    (h3 : jsonToGoogleCloud buf = jsonToGoogleCloud buf')
    (h4 : jsonToPlex buf = jsonToPlex buf') : schemaMessage t buf = schemaMessage t buf' := by
  unfold schemaMessage
  rw [h1, h2, h3, h4]

/-- C16, as stated, fails: `{"event":"a","EVENT":"b"}` and
`{"EVENT":"b","event":"a"}` are flat objects with string values that hold the
same two pairs under distinct keys in different order, and `BufferToMessage`
returns different results on them, whatever the printability table: both keys
name the field `event` of `Plex`, and the later one wins. -/
theorem C16_key_order_counterexample :
    parse "\x7b\"event\":\"a\",\"EVENT\":\"b\"\x7d" =
      some (.obj [("event", .str "a"), ("EVENT", .str "b")]) ∧
    parse "\x7b\"EVENT\":\"b\",\"event\":\"a\"\x7d" =
      some (.obj [("EVENT", .str "b"), ("event", .str "a")]) ∧
    ¬ ∃ isPrintTable : Char → Bool,
      BufferToMessage isPrintTable "\x7b\"event\":\"a\",\"EVENT\":\"b\"\x7d" =
        BufferToMessage isPrintTable "\x7b\"EVENT\":\"b\",\"event\":\"a\"\x7d" := by
  refine ⟨rfl, rfl, ?_⟩
  rintro ⟨t, h⟩
  have h1 : BufferToMessage t "\x7b\"event\":\"a\",\"EVENT\":\"b\"\x7d" =
      ("Plex - \"b\" :  0x0\n", none) := rfl
  have h2 : BufferToMessage t "\x7b\"EVENT\":\"b\",\"event\":\"a\"\x7d" =
      ("Plex - \"a\" :  0x0\n", none) := rfl
  rw [h1, h2] at h
  exact absurd h (by decide)

/-- C16, amended. Two buffers that are flat objects with string values, hold
the same pairs under distinct keys and differ only in the order of the
members: the fallback returns the same on both, and so does `sort.Strings` on
any two orders of the same keys.  `BufferToMessage` returns the same on both
when the keys are still distinct after case folding, and also when no schema
matches either buffer. -/
theorem C16_key_order_independence (isPrintTable : Char → Bool) (buf buf' : String)
    (ms ms' : List (String × JSON)) (hp : parse buf = some (.obj ms))
    (hp' : parse buf' = some (.obj ms')) (hperm : ms.Perm ms')
    (hflat : ∀ m ∈ ms, m.2.isString = true) (hkeys : (ms.map Prod.fst).Nodup) :
    fallback buf = fallback buf' ∧
    (∀ keys keys' : List String, keys.Perm keys' → sortStrings keys = sortStrings keys') ∧
    ((ms.map (fun m => m.1.data.map foldRune)).Nodup →
      BufferToMessage isPrintTable buf = BufferToMessage isPrintTable buf') ∧
    (noSchemaMatches buf = true → noSchemaMatches buf' = true →
      BufferToMessage isPrintTable buf = BufferToMessage isPrintTable buf') := by
  have hf := fallback_perm buf buf' ms ms' hp hp' hperm hflat hkeys
  refine ⟨hf, sortStrings_eq_of_perm, fun hfold => ?_, fun hn hn' => ?_⟩
  · have hu := fun fs => unmarshal_struct_perm fs buf buf' ms ms' hp hp' hperm hfold
    have hs : schemaMessage isPrintTable buf = schemaMessage isPrintTable buf' :=
      schemaMessage_congr isPrintTable buf buf'
        (by unfold jsonToSonarr; rw [hu])
        (by unfold jsonToLidarr; rw [hu])
        (by unfold jsonToGoogleCloud; rw [hu])
        (by unfold jsonToPlex; rw [hu])
    rw [bufferToMessage_eq, bufferToMessage_eq, hs, hf]
  · rw [bufferToMessage_of_noMatch _ _ hn, bufferToMessage_of_noMatch _ _ hn', hf]

/-- C16, amended, at the buffers `{"event":"deploy","status":"ok"}` and
`{"status":"ok","event":"deploy"}`. -/
theorem C16_key_order_independence_witness :
    BufferToMessage (fun _ => false) "\x7b\"event\":\"deploy\",\"status\":\"ok\"\x7d" =
      BufferToMessage (fun _ => false) "\x7b\"status\":\"ok\",\"event\":\"deploy\"\x7d" ∧
    fallback "\x7b\"event\":\"deploy\",\"status\":\"ok\"\x7d" =
      fallback "\x7b\"status\":\"ok\",\"event\":\"deploy\"\x7d" := by
  have h := C16_key_order_independence (fun _ => false)
    "\x7b\"event\":\"deploy\",\"status\":\"ok\"\x7d"
    "\x7b\"status\":\"ok\",\"event\":\"deploy\"\x7d"
    [("event", .str "deploy"), ("status", .str "ok")]
    [("status", .str "ok"), ("event", .str "deploy")] rfl rfl (List.Perm.swap _ _ _)
    (by decide) (by decide)
  exact ⟨h.2.2.1 (by decide), h.1⟩

/-! ## The order of the range, and flat objects with an `event` -/

theorem bufferToMessageRange_eq (range : List String → List String)
    (hrange : ∀ l, (range l).Perm l) (t : Char → Bool) (buf : String) :
    BufferToMessageRange range t buf = BufferToMessage t buf := by
  have h : BufferToMessageRange range t buf =
      if schemaMessage t buf == "" then
        match Unmarshal (.map .string) buf with
        | (_, some err) => ("", some (.decodingJSONToMap err))
        | (f, none) =>
          ((sortStrings (range (f.entries.map (fun e => e.1)))).foldl (fun msg k =>
            msg ++ (k ++ ": " ++ ((f.entries.lookup k).getD (.string "")).asString ++ "\n"))
            (schemaMessage t buf), none)
      else (schemaMessage t buf, none) := rfl
  rw [h, bufferToMessage_eq]
  by_cases he : schemaMessage t buf = ""
  · rw [he]
    simp only [beq_self_eq_true, ↓reduceIte]
    unfold fallback
    rcases Unmarshal (.map .string) buf with ⟨f, _ | e⟩
    · simp only
      rw [sortStrings_eq_of_perm _ _ (hrange _)]
    · rfl
  · simp [he]

/-- C17. `BufferToMessage` is a function of its buffer: the one thing Go
leaves open in it, the order in which `range` delivers the keys of the map,
does not show in the result, since the keys are sorted before they are used.
For every order of the range the result, string and error, is that of
`BufferToMessage`, so two calls on the same buffer agree whatever orders their
ranges take. -/
theorem C17_deterministic (isPrintTable : Char → Bool) (buf : String)
    (range₁ range₂ : List String → List String) (h₁ : ∀ l, (range₁ l).Perm l)
    (h₂ : ∀ l, (range₂ l).Perm l) :
    BufferToMessageRange range₁ isPrintTable buf =
      BufferToMessageRange range₂ isPrintTable buf ∧
    BufferToMessageRange range₁ isPrintTable buf = BufferToMessage isPrintTable buf := by
  rw [bufferToMessageRange_eq range₁ h₁, bufferToMessageRange_eq range₂ h₂]
  exact ⟨rfl, rfl⟩

/-- C17 at the buffer `{"b":"2","a":"1"}`, the range taking the keys as they
entered the map in one call and in the reverse order in the other. -/
theorem C17_deterministic_witness :
    BufferToMessageRange id (fun _ => false) "\x7b\"b\":\"2\",\"a\":\"1\"\x7d" =
      BufferToMessageRange List.reverse (fun _ => false) "\x7b\"b\":\"2\",\"a\":\"1\"\x7d" :=
  (C17_deterministic (fun _ => false) "\x7b\"b\":\"2\",\"a\":\"1\"\x7d" id List.reverse
    (fun _ => List.Perm.refl _) List.reverse_perm).1

theorem filterMap_eq_nil_of_none {α β : Type} (f : α → Option β) (l : List α)
    (h : ∀ a ∈ l, f a = none) : l.filterMap f = [] := by
  induction l with
  | nil => rfl
  | cons a l ih =>
    rw [List.filterMap_cons, h a (List.mem_cons_self _ _)]
    exact ih (fun b hb => h b (List.mem_cons_of_mem _ hb))

theorem prune_single (fs : List (String × GoType)) (ms1 ms2 : List (String × JSON))
    (m : String × JSON) (h : ∀ m' ∈ ms1 ++ ms2, findField fs m'.1 = none) :
    prune (.struct fs) (.obj (ms1 ++ m :: ms2)) = prune (.struct fs) (.obj [m]) := by
  simp only [prune, List.filterMap_append, List.filterMap_cons, List.filterMap_nil]
  rw [filterMap_eq_nil_of_none _ ms1 (fun a ha => by
      rw [h a (List.mem_append_left _ ha)]),
    filterMap_eq_nil_of_none _ ms2 (fun a ha => by
      rw [h a (List.mem_append_right _ ha)])]
  simp

theorem unmarshal_single (fs : List (String × GoType)) (buf : String)
    (ms1 ms2 : List (String × JSON)) (m : String × JSON)
    (hp : parse buf = some (.obj (ms1 ++ m :: ms2)))
    (h : ∀ m' ∈ ms1 ++ ms2, findField fs m'.1 = none) :
    Unmarshal (.struct fs) buf =
      ((decode (.struct fs) (zero (.struct fs)) (.obj [m])).1,
        if (decode (.struct fs) (zero (.struct fs)) (.obj [m])).2
        then some .unmarshalTypeError else none) := by
  unfold Unmarshal
  rw [hp]
  simp only
  rw [← decode_prune, prune_single fs ms1 ms2 m h, decode_prune]

/-- C20. A buffer that is a JSON object with a member `event` whose value is a
non-empty string, all other members having keys that name no field of any of
the four schemas (`{"event":"deploy","status":"ok"}` for one): whatever the
other members hold, `BufferToMessage` returns no error and the one line of
`Plex.Message` for that event, an empty title and the indices 0 and 0.  The
result is a function of the event alone. -/
theorem C20_flat_object_with_event (isPrintTable : Char → Bool) (buf : String)
    (ms1 ms2 : List (String × JSON)) (tag : String)
    (hp : parse buf = some (.obj (ms1 ++ ("event", .str tag) :: ms2)))
    (htag : tag ≠ "") (hother : ∀ m ∈ ms1 ++ ms2, namesNoField m.1 = true) :
    BufferToMessage isPrintTable buf =
      ("Plex - " ++ fmtQ isPrintTable tag ++ " :  0x0\n", none) ∧
    BufferToMessage isPrintTable buf =
      (Plex.Message isPrintTable ⟨tag, ⟨"", 0, 0⟩⟩, none) ∧
    BufferToMessage isPrintTable "\x7b\"event\":\"deploy\",\"status\":\"ok\"\x7d" =
      ("Plex - \"deploy\" :  0x0\n", none) := by
  have hs : jsonToSonarr buf = some ⟨[], "", ⟨""⟩⟩ := by
    unfold jsonToSonarr
    rw [unmarshal_single sonarrFields buf ms1 ms2 _ hp (fun m hm => by
      have := hother m hm
      simp only [namesNoField, Bool.and_eq_true, Option.isNone_iff_eq_none] at this
      exact this.1.1.1)]
    rfl
  have hl : jsonToLidarr buf = some ⟨[], "", ⟨""⟩⟩ := by
    unfold jsonToLidarr
    rw [unmarshal_single lidarrFields buf ms1 ms2 _ hp (fun m hm => by
      have := hother m hm
      simp only [namesNoField, Bool.and_eq_true, Option.isNone_iff_eq_none] at this
      exact this.1.1.2)]
    rfl
  have hg : jsonToGoogleCloud buf = some ⟨⟨"", ""⟩⟩ := by
    unfold jsonToGoogleCloud
    rw [unmarshal_single googleCloudFields buf ms1 ms2 _ hp (fun m hm => by
      have := hother m hm
      simp only [namesNoField, Bool.and_eq_true, Option.isNone_iff_eq_none] at this
      exact this.1.2)]
    rfl
  have hx : jsonToPlex buf = some ⟨tag, ⟨"", 0, 0⟩⟩ := by
    unfold jsonToPlex
    rw [unmarshal_single plexFields buf ms1 ms2 _ hp (fun m hm => by
      have := hother m hm
      simp only [namesNoField, Bool.and_eq_true, Option.isNone_iff_eq_none] at this
      exact this.2)]
    rfl
  have hv : Plex.Valid ⟨tag, ⟨"", 0, 0⟩⟩ = true := by simp [Plex.Valid, htag]
  have hm : schemaMessage isPrintTable buf = Plex.Message isPrintTable ⟨tag, ⟨"", 0, 0⟩⟩ := by
    rw [schemaMessage_eq, hs, hl, hg, hx]
    simp only [contribution, hv, ↓reduceIte]
    rfl
  have hb : BufferToMessage isPrintTable buf =
      (Plex.Message isPrintTable ⟨tag, ⟨"", 0, 0⟩⟩, none) := by
    rw [bufferToMessage_eq, hm, if_neg (plex_message_ne_empty isPrintTable _)]
  refine ⟨?_, hb, rfl⟩
  rw [hb]
  simp only [Plex.Message, String.append_assoc]
  rfl

/-- C20 at the buffer `{"id":"7","event":"deploy","status":"ok"}`. -/
theorem C20_flat_object_with_event_witness :
    BufferToMessage (fun _ => false) "\x7b\"id\":\"7\",\"event\":\"deploy\",\"status\":\"ok\"\x7d" =
      ("Plex - \"deploy\" :  0x0\n", none) := by
  have h := (C20_flat_object_with_event (fun _ => false)
    "\x7b\"id\":\"7\",\"event\":\"deploy\",\"status\":\"ok\"\x7d"
    [("id", .str "7")] [("status", .str "ok")] "deploy" rfl (by decide) (by decide!)).1
  rw [h]
  decide!

end Relay
